import Mathlib

/-!
Verification development for the tree-sitter-fir external scanner
(src/src/scanner.c). The C scanner is shallowly embedded: the lexer handle
becomes an explicit `Lexer` record over a `List Nat` of remaining code
points, the scanner state becomes the `Scanner` record, and every C loop
becomes a fuel-indexed structural recursion whose fuel is instantiated with
the length of the remaining input (each loop iteration of the C code
consumes at least one code point, so this fuel is always sufficient).
-/

/-- Token kinds, in the exact order of the C `enum TokenType` (scanner.c lines 8-110). -/
inductive TokenType where
  | START_BLOCK
  | END_BLOCK
  | NEWLINE
  | UPPER_ID
  | LOWER_ID
  | LABEL
  | INT_LITERAL
  | CHAR_LITERAL
  | BEGIN_STR
  | END_STR
  | STRING_CONTENT
  | BEGIN_INTERPOLATION
  | END_INTERPOLATION
  | BLOCK_COMMENT
  | LINE_COMMENT
  | LPAREN
  | RPAREN
  | LBRACKET
  | RBRACKET
  | LBRACE
  | RBRACE
  | BACKSLASH_LPAREN
  | COLON
  | COMMA
  | DOT
  | DOTDOT
  | EQ
  | UNDERSCORE
  | SLASH
  | SEMICOLON
  | PLUS
  | MINUS
  | STAR
  | EQEQ
  | NEQ
  | LT
  | GT
  | LTEQ
  | GTEQ
  | LSHIFT
  | RSHIFT
  | AMP
  | AMPAMP
  | PIPE
  | TILDE
  | EXCLAMATION
  | PERCENT
  | CARET
  | PLUSEQ
  | MINUSEQ
  | STAREQ
  | CARETEQ
  | KW_AND
  | KW_AS
  | KW_BREAK
  | KW_CONTINUE
  | KW_DO
  | KW_ELIF
  | KW_ELSE
  | KW_FN
  | KW_UPPER_FN
  | KW_FOR
  | KW_IF
  | KW_IMPL
  | KW_IMPORT
  | KW_IN
  | KW_IS
  | KW_LET
  | KW_LOOP
  | KW_MATCH
  | KW_NOT
  | KW_OR
  | KW_PRIM
  | KW_RETURN
  | KW_TRAIT
  | KW_TYPE
  | KW_VALUE
  | KW_WHILE
  | KW_ROW
  | TOKEN_COUNT
  deriving DecidableEq

/-- Frame kinds of the delimiter/indentation stack (scanner.c lines 113-118). -/
inductive FrameKind where
  | INDENTED
  | PAREN
  | BRACKET
  | INTERPOLATION
  deriving DecidableEq

/-- One stack frame: `kind` plus `block_col` (a `uint16_t` in C, meaningful
only for `INDENTED`; scanner.c lines 120-123). -/
structure Frame where
  kind : FrameKind
  block_col : Nat
  deriving DecidableEq

/-- Default frame used when reading outside the modelled array (the C code
never does so on states satisfying its invariants). -/
def defFrame : Frame := ⟨.INDENTED, 0⟩

/-- Scanner state (scanner.c lines 127-133). `stack` models the C array
`Frame stack[128]`; `depth` is the number of live frames. -/
structure Scanner where
  stack : List Frame
  depth : Nat
  pending_end_blocks : Nat
  in_string : Bool
  eof_newline_emitted : Bool
  deriving DecidableEq

/-- Array read `stack[i]`, with `defFrame` for out-of-range reads. -/
def getF : List Frame → Nat → Frame
  | [], _ => defFrame
  | f :: _, 0 => f
  | _ :: rest, n + 1 => getF rest n

/-- Array write `stack[i] = f`; a no-op out of range (the C guards `depth < 128`). -/
def setF : List Frame → Nat → Frame → List Frame
  | [], _, _ => []
  | _ :: rest, 0, f => f :: rest
  | g :: rest, n + 1, f => g :: setF rest n f

/-- Byte read `buffer[i]` with 0 out of range. -/
def getB : List Nat → Nat → Nat
  | [], _ => 0
  | b :: _, 0 => b
  | _ :: rest, n + 1 => getB rest n

/-- Character classification helpers (scanner.c lines 137-143). -/
def is_upper (c : Nat) : Bool := decide (65 ≤ c ∧ c ≤ 90)

def is_lower (c : Nat) : Bool := decide (97 ≤ c ∧ c ≤ 122)

def is_digit (c : Nat) : Bool := decide (48 ≤ c ∧ c ≤ 57)

def is_alnum (c : Nat) : Bool := is_upper c || is_lower c || is_digit c

def is_id_char (c : Nat) : Bool := is_alnum c || c == 95

def is_hex (c : Nat) : Bool := is_digit c || decide (97 ≤ c ∧ c ≤ 102) || decide (65 ≤ c ∧ c ≤ 70)

def is_bin (c : Nat) : Bool := c == 48 || c == 49

/-- `top_frame` (scanner.c lines 145-147): `stack[depth - 1]`. -/
def top_frame (s : Scanner) : Frame := getF s.stack (s.depth - 1)

/-- `push_frame` (scanner.c lines 149-155). The `% 65536` models the
`uint16_t block_col` field (call sites cast with `(uint16_t)`); a push at
full depth is silently dropped. -/
def push_frame (s : Scanner) (kind : FrameKind) (col : Nat) : Scanner :=
  if s.depth < 128 then
    { s with stack := setF s.stack s.depth ⟨kind, col % 65536⟩, depth := s.depth + 1 }
  else s

/-- `pop_frame` (scanner.c lines 157-161): no-op when only the sentinel remains. -/
def pop_frame (s : Scanner) : Scanner :=
  if 1 < s.depth then { s with depth := s.depth - 1 } else s

/-- `in_non_indented` (scanner.c lines 164-167). -/
def in_non_indented (s : Scanner) : Bool := (top_frame s).kind != .INDENTED

/-- Loop body of `indented_frames_above_delimiter` (scanner.c lines 170-180):
count contiguous `INDENTED` frames from index `n - 1` down to 0. -/
def indentedAbove (stack : List Frame) : Nat → Nat
  | 0 => 0
  | n + 1 => if (getF stack n).kind = .INDENTED then 1 + indentedAbove stack n else 0

/-- `indented_frames_above_delimiter` (scanner.c lines 170-180). -/
def indented_frames_above_delimiter (s : Scanner) : Nat := indentedAbove s.stack s.depth

/-- Dedent-count loop of `scan` (scanner.c lines 576-583): iterate
`i = depth - 1` down to `1` (the sentinel at index 0 is excluded), counting
contiguous `INDENTED` frames with `block_col > col`; the argument is the
current loop index `i`. -/
def countDedents (stack : List Frame) (col : Nat) : Nat → Nat
  | 0 => 0
  | j + 1 =>
    if (getF stack (j + 1)).kind = .INDENTED ∧ col < (getF stack (j + 1)).block_col then
      1 + countDedents stack col j
    else 0

/-- Lexer handle: remaining input, column of the lookahead code point, the
number of code points consumed so far, the `mark_end` position (`none` if
`mark_end` was never called, in which case the token ends at the current
position), and the `result_symbol` out-parameter. -/
structure Lexer where
  input : List Nat
  col : Nat
  consumed : Nat
  marked : Option Nat
  resultSymbol : Option TokenType
  deriving DecidableEq

/-- `lexer->lookahead`: 0 at end of input. -/
def lookahead (lex : Lexer) : Nat := lex.input.headD 0

/-- `advance(lexer, false)`: consume one code point; the column resets after
a newline. -/
def advance (lex : Lexer) : Lexer :=
  { lex with
    input := lex.input.tail
    col := if lookahead lex = 10 then 0 else lex.col + 1
    consumed := lex.consumed + 1 }

/-- `advance(lexer, true)` (scanner.c lines 189-191): a skipped code point is
excluded from the token's extent, which this model does not track for the
skipped prefix, so consumption is identical to `advance`. -/
def skip (lex : Lexer) : Lexer := advance lex

/-- `lexer->mark_end(lexer)`. -/
def mark_end (lex : Lexer) : Lexer := { lex with marked := some lex.consumed }

/-- Assignment `lexer->result_symbol = t`. -/
def result (lex : Lexer) (t : TokenType) : Lexer := { lex with resultSymbol := some t }

/-- `lexer->eof(lexer)`. -/
def eof (lex : Lexer) : Bool := lex.input.isEmpty

/-- Loop of `skip_horizontal_ws` (scanner.c lines 194-198). -/
def skip_horizontal_ws_go : Nat → Lexer → Lexer
  | 0, lex => lex
  | fuel + 1, lex =>
    if lookahead lex = 32 ∨ lookahead lex = 9 then skip_horizontal_ws_go fuel (skip lex) else lex

/-- `skip_horizontal_ws` (scanner.c lines 194-198). -/
def skip_horizontal_ws (lex : Lexer) : Lexer := skip_horizontal_ws_go lex.input.length lex

/-- Loop of `skip_all_ws` (scanner.c lines 201-206). -/
def skip_all_ws_go : Nat → Lexer → Lexer
  | 0, lex => lex
  | fuel + 1, lex =>
    if lookahead lex = 32 ∨ lookahead lex = 9 ∨ lookahead lex = 10 ∨ lookahead lex = 13 then
      skip_all_ws_go fuel (skip lex)
    else lex

/-- `skip_all_ws` (scanner.c lines 201-206). -/
def skip_all_ws (lex : Lexer) : Lexer := skip_all_ws_go lex.input.length lex

/-- Loop of `skip_blank_lines` (scanner.c lines 210-229). The C inner
`while` over spaces/tabs is `skip_horizontal_ws`. -/
def skip_blank_lines_go : Nat → Lexer → Lexer
  | 0, lex => lex
  | fuel + 1, lex =>
    if lookahead lex = 10 ∨ lookahead lex = 13 then skip_blank_lines_go fuel (skip lex)
    else if lookahead lex = 32 ∨ lookahead lex = 9 then
      let lex1 := skip_horizontal_ws lex
      if lookahead lex1 = 10 ∨ lookahead lex1 = 13 then skip_blank_lines_go fuel lex1
      else lex1
    else lex

/-- `skip_blank_lines` (scanner.c lines 210-229). -/
def skip_blank_lines (lex : Lexer) : Lexer := skip_blank_lines_go lex.input.length lex

/-- Newline-run loop shared by the non-indented `NEWLINE` branch
(scanner.c lines 455-458) and the indented-mode newline scan
(scanner.c lines 486-496): while at a newline, skip it and the following
horizontal whitespace. -/
def skip_newline_ws_go : Nat → Lexer → Lexer
  | 0, lex => lex
  | fuel + 1, lex =>
    if lookahead lex = 10 ∨ lookahead lex = 13 then
      skip_newline_ws_go fuel (skip_horizontal_ws (skip lex))
    else lex

/-- Wrapper fixing the fuel of `skip_newline_ws_go`. -/
def skip_newline_ws (lex : Lexer) : Lexer := skip_newline_ws_go lex.input.length lex

/-- Keyword table (scanner.c lines 238-266), with spellings as code-point lists. -/
def keywords : List (List Nat × TokenType) :=
  [([97, 110, 100], .KW_AND),
   ([97, 115], .KW_AS),
   ([98, 114, 101, 97, 107], .KW_BREAK),
   ([99, 111, 110, 116, 105, 110, 117, 101], .KW_CONTINUE),
   ([100, 111], .KW_DO),
   ([101, 108, 105, 102], .KW_ELIF),
   ([101, 108, 115, 101], .KW_ELSE),
   ([102, 110], .KW_FN),
   ([102, 111, 114], .KW_FOR),
   ([105, 102], .KW_IF),
   ([105, 109, 112, 108], .KW_IMPL),
   ([105, 109, 112, 111, 114, 116], .KW_IMPORT),
   ([105, 110], .KW_IN),
   ([105, 115], .KW_IS),
   ([108, 101, 116], .KW_LET),
   ([108, 111, 111, 112], .KW_LOOP),
   ([109, 97, 116, 99, 104], .KW_MATCH),
   ([110, 111, 116], .KW_NOT),
   ([111, 114], .KW_OR),
   ([112, 114, 105, 109], .KW_PRIM),
   ([114, 101, 116, 117, 114, 110], .KW_RETURN),
   ([114, 111, 119], .KW_ROW),
   ([116, 114, 97, 105, 116], .KW_TRAIT),
   ([116, 121, 112, 101], .KW_TYPE),
   ([118, 97, 108, 117, 101], .KW_VALUE),
   ([119, 104, 105, 108, 101], .KW_WHILE)]

/-- `lookup_keyword` (scanner.c lines 268-275): linear search comparing the
whole spelling (`strlen(kw) == len && strncmp(kw, word, len) == 0`). -/
def lookup_keyword : List (List Nat × TokenType) → List Nat → TokenType
  | [], _ => .LOWER_ID
  | (kw, tok) :: rest, word => if kw = word then tok else lookup_keyword rest word

/-- Bounded identifier-character loop
`while (is_id_char(lookahead) && len < 63) word[len++] = advance(...)`
used by `scan_upper_id` (line 289), `scan_lower_id_or_keyword` (line 316)
and the label body scan inside `scan` (lines 766-769). -/
def consume_id_chars_go : Nat → List Nat → Lexer → List Nat × Lexer
  | 0, word, lex => (word, lex)
  | fuel + 1, word, lex =>
    if is_id_char (lookahead lex) ∧ word.length < 63 then
      consume_id_chars_go fuel (word ++ [lookahead lex]) (advance lex)
    else (word, lex)

/-- Wrapper fixing the fuel of `consume_id_chars_go`. -/
def consume_id_chars (word : List Nat) (lex : Lexer) : List Nat × Lexer :=
  consume_id_chars_go lex.input.length word lex

/-- Bounded leading-underscore loop
`while (lookahead == '_' && len < 63) word[len++] = advance(...)`
(scanner.c lines 286 and 308-310). -/
def consume_uscores_go : Nat → List Nat → Lexer → List Nat × Lexer
  | 0, word, lex => (word, lex)
  | fuel + 1, word, lex =>
    if lookahead lex = 95 ∧ word.length < 63 then
      consume_uscores_go fuel (word ++ [95]) (advance lex)
    else (word, lex)

/-- Wrapper fixing the fuel of `consume_uscores_go`. -/
def consume_uscores (word : List Nat) (lex : Lexer) : List Nat × Lexer :=
  consume_uscores_go lex.input.length word lex

/-- Unbounded `while (p(lookahead)) advance(lexer)` loop, used for the
hex/binary/decimal digit runs of `scan_int_literal` (lines 343, 349, 356)
and the unbounded identifier loops of the underscore branch of `scan`
(lines 818, 822-823, 834-835). -/
def consume_while_go (p : Nat → Bool) : Nat → Lexer → Lexer
  | 0, lex => lex
  | fuel + 1, lex => if p (lookahead lex) then consume_while_go p fuel (advance lex) else lex

/-- Wrapper fixing the fuel of `consume_while_go`. -/
def consume_while (p : Nat → Bool) (lex : Lexer) : Lexer :=
  consume_while_go p lex.input.length lex

/-- `scan_upper_id` (scanner.c lines 282-300): returns the token kind
(`TOKEN_COUNT` on failure) and the final lexer. -/
def scan_upper_id (valid : TokenType → Bool) (lex : Lexer) : TokenType × Lexer :=
  let r1 := consume_uscores [] lex
  if is_upper (lookahead r1.2) then
    let r2 := consume_id_chars (r1.1 ++ [lookahead r1.2]) (advance r1.2)
    let lexM := mark_end r2.2
    if r2.1 = [70, 110] ∧ valid .KW_UPPER_FN then (.KW_UPPER_FN, lexM)
    else (.UPPER_ID, lexM)
  else (.TOKEN_COUNT, r1.2)

/-- `scan_lower_id_or_keyword` (scanner.c lines 303-330). The C function
also receives the scanner state but never uses it, so that parameter is
omitted here. -/
def scan_lower_id_or_keyword (valid : TokenType → Bool) (lex : Lexer) : TokenType × Lexer :=
  let r1 := consume_uscores [] lex
  if is_lower (lookahead r1.2) then
    let r2 := consume_id_chars (r1.1 ++ [lookahead r1.2]) (advance r1.2)
    let lexM := mark_end r2.2
    let kw := lookup_keyword keywords r2.1
    if kw ≠ .LOWER_ID ∧ valid kw then (kw, lexM)
    else (.LOWER_ID, lexM)
  else (.TOKEN_COUNT, r1.2)

/-- `scan_int_literal` (scanner.c lines 335-358). -/
def scan_int_literal (lex : Lexer) : Bool × Lexer :=
  if ¬ is_digit (lookahead lex) then (false, lex)
  else if lookahead lex = 48 then
    let lex1 := advance lex
    if lookahead lex1 = 120 ∨ lookahead lex1 = 88 then
      let lex2 := advance lex1
      if ¬ is_hex (lookahead lex2) ∧ lookahead lex2 ≠ 95 then (false, lex2)
      else (true, consume_while (fun ch => is_hex ch || ch == 95) lex2)
    else if lookahead lex1 = 98 ∨ lookahead lex1 = 66 then
      let lex2 := advance lex1
      if ¬ is_bin (lookahead lex2) ∧ lookahead lex2 ≠ 95 then (false, lex2)
      else (true, consume_while (fun ch => is_bin ch || ch == 95) lex2)
    else (true, consume_while (fun ch => is_digit ch || ch == 95) lex1)
  else (true, consume_while (fun ch => is_digit ch || ch == 95) lex)

/-- Whitespace run consumed (not skipped) after a string continuation escape
(scanner.c lines 398-401). -/
def advance_all_ws_go : Nat → Lexer → Lexer
  | 0, lex => lex
  | fuel + 1, lex =>
    if lookahead lex = 32 ∨ lookahead lex = 9 ∨ lookahead lex = 10 ∨ lookahead lex = 13 then
      advance_all_ws_go fuel (advance lex)
    else lex

/-- Wrapper fixing the fuel of `advance_all_ws_go`. -/
def advance_all_ws (lex : Lexer) : Lexer := advance_all_ws_go lex.input.length lex

/-- Loop of `scan_string_content` (scanner.c lines 385-410): `has` is the
`has_content` flag. -/
def scan_string_content_go : Nat → Bool → Lexer → Bool × Lexer
  | 0, has, lex => (has, lex)
  | fuel + 1, has, lex =>
    if lookahead lex = 34 ∨ lookahead lex = 96 ∨ lookahead lex = 0 then (has, lex)
    else if lookahead lex = 92 then
      let lex1 := advance lex
      if lookahead lex1 = 10 then
        scan_string_content_go fuel true (advance_all_ws (advance lex1))
      else if lookahead lex1 ≠ 0 then
        scan_string_content_go fuel true (advance lex1)
      else
        scan_string_content_go fuel true lex1
    else scan_string_content_go fuel true (advance lex)

/-- `scan_string_content` (scanner.c lines 385-410). -/
def scan_string_content (lex : Lexer) : Bool × Lexer :=
  scan_string_content_go lex.input.length false lex

/-- Loop of the nested block comment scan (scanner.c lines 636-647);
`depth` is the comment nesting depth. -/
def block_comment_go : Nat → Nat → Lexer → Lexer
  | 0, _, lex => lex
  | fuel + 1, depth, lex =>
    if 0 < depth ∧ lookahead lex ≠ 0 then
      if lookahead lex = 35 then
        let lex1 := advance lex
        if lookahead lex1 = 124 then block_comment_go fuel (depth + 1) (advance lex1)
        else block_comment_go fuel depth lex1
      else if lookahead lex = 124 then
        let lex1 := advance lex
        if lookahead lex1 = 35 then block_comment_go fuel (depth - 1) (advance lex1)
        else block_comment_go fuel depth lex1
      else block_comment_go fuel depth (advance lex)
    else lex

/-- Wrapper fixing the fuel of `block_comment_go`. -/
def block_comment_loop (depth : Nat) (lex : Lexer) : Lexer :=
  block_comment_go lex.input.length depth lex

/-- Line-comment loop `while (lookahead != '\n' && lookahead != 0) advance`
(scanner.c lines 656-658). -/
def line_comment_go : Nat → Lexer → Lexer
  | 0, lex => lex
  | fuel + 1, lex =>
    if lookahead lex ≠ 10 ∧ lookahead lex ≠ 0 then line_comment_go fuel (advance lex) else lex

/-- Wrapper fixing the fuel of `line_comment_go`. -/
def line_comment (lex : Lexer) : Lexer := line_comment_go lex.input.length lex

/-- Outcome of a phase of `scan`: either the C function returned (`ret`),
or control fell through to the next phase (`fall`). -/
inductive ScanOut where
  | ret : Bool → Scanner → Lexer → ScanOut
  | fall : Scanner → Lexer → ScanOut
  deriving DecidableEq

/-- String-mode phase of `scan` (scanner.c lines 424-443), entered when
`in_string` is set. -/
def scanString (s : Scanner) (lex : Lexer) (valid : TokenType → Bool) : Bool × Scanner × Lexer :=
  if valid .STRING_CONTENT ∧ lookahead lex ≠ 34 ∧ lookahead lex ≠ 96 ∧ lookahead lex ≠ 0 then
    let r := scan_string_content (result lex .STRING_CONTENT)
    (r.1, s, r.2)
  else if valid .END_STR ∧ lookahead lex = 34 then
    (true, { s with in_string := false }, result (advance lex) .END_STR)
  else if valid .BEGIN_INTERPOLATION ∧ lookahead lex = 96 then
    (true, push_frame { s with in_string := false } .INTERPOLATION 0,
     result (advance lex) .BEGIN_INTERPOLATION)
  else (false, s, lex)

/-- Non-indented-mode whitespace/layout phase of `scan`
(scanner.c lines 448-475). -/
def scanNonIndented (s : Scanner) (lex : Lexer) (valid : TokenType → Bool) : ScanOut :=
  let lex1 := skip_horizontal_ws lex
  if valid .NEWLINE ∧ (lookahead lex1 = 10 ∨ lookahead lex1 = 13) then
    .ret true s (result (skip_newline_ws lex1) .NEWLINE)
  else
    let lex2 := skip_all_ws lex1
    if valid .START_BLOCK ∧ lookahead lex2 ≠ 35 then
      .ret true (push_frame s .INDENTED lex2.col) (result lex2 .START_BLOCK)
    else .fall s lex2

/-- `START_BLOCK` handling of the indented phase (scanner.c lines 519-549).
`at_newline` records whether the surrounding phase crossed a newline. -/
def startBlockCheck (s : Scanner) (at_newline : Bool) (lex : Lexer)
    (valid : TokenType → Bool) : ScanOut :=
  if valid .START_BLOCK then
    if ¬ at_newline then
      if lookahead lex = 10 ∨ lookahead lex = 13 then
        let lex1 := skip_blank_lines lex
        if lookahead lex1 ≠ 35 then
          .ret true (push_frame s .INDENTED lex1.col) (result lex1 .START_BLOCK)
        else .fall s lex1
      else if lookahead lex ≠ 35 then
        .ret true (push_frame s .INDENTED lex.col) (result lex .START_BLOCK)
      else .fall s lex
    else
      if lookahead lex ≠ 35 then
        .ret true (push_frame s .INDENTED lex.col) (result lex .START_BLOCK)
      else .fall s lex
  else .fall s lex

/-- Auto-close check for `)`, `]`, `,`, `}` while in indented mode
(scanner.c lines 551-567). -/
def delimiterCheck (s : Scanner) (lex : Lexer) (valid : TokenType → Bool) : ScanOut :=
  if lookahead lex = 41 ∨ lookahead lex = 93 ∨ lookahead lex = 44 ∨ lookahead lex = 125 then
    if valid .NEWLINE then
      let lex1 := result lex .NEWLINE
      let count := indented_frames_above_delimiter s
      if 0 < count then .ret true { s with pending_end_blocks := count } lex1
      else .ret true s lex1
    else if valid .END_BLOCK ∧ (top_frame s).kind = .INDENTED ∧ 1 < s.depth then
      .ret true (pop_frame s) (result lex .END_BLOCK)
    else .fall s lex
  else .fall s lex

/-- Indentation comparison after a crossed newline (scanner.c lines 570-606). -/
def indentationCheck (s : Scanner) (lex : Lexer) (valid : TokenType → Bool) : ScanOut :=
  let col := lex.col
  let frame := top_frame s
  if col < frame.block_col then
    let dc := countDedents s.stack col (s.depth - 1)
    let dedent_count := if dc = 0 then 1 else dc
    if valid .NEWLINE then
      .ret true { s with pending_end_blocks := dedent_count } (result lex .NEWLINE)
    else if valid .END_BLOCK then
      .ret true (pop_frame { s with pending_end_blocks := dedent_count - 1 })
        (result lex .END_BLOCK)
    else .fall s lex
  else if col = frame.block_col then
    if valid .NEWLINE then .ret true s (result lex .NEWLINE) else .fall s lex
  else .fall s lex

/-- Indented-mode layout work after whitespace has been skipped
(scanner.c lines 498-606): EOF handling, then the `START_BLOCK`,
delimiter auto-close, and indentation checks. -/
def scanIndentedCore (s : Scanner) (at_newline : Bool) (lex2 : Lexer)
    (valid : TokenType → Bool) : ScanOut :=
  if eof lex2 then
    if valid .NEWLINE ∧ ¬ s.eof_newline_emitted then
      .ret true { s with eof_newline_emitted := true } (result lex2 .NEWLINE)
    else if valid .END_BLOCK ∧ (top_frame s).kind = .INDENTED ∧ 1 < s.depth then
      .ret true (pop_frame s) (result lex2 .END_BLOCK)
    else .ret false s lex2
  else
    match startBlockCheck s at_newline lex2 valid with
    | .ret b s1 l1 => .ret b s1 l1
    | .fall s1 lex3 =>
      match delimiterCheck s1 lex3 valid with
      | .ret b s2 l2 => .ret b s2 l2
      | .fall s2 lex4 =>
        if at_newline then indentationCheck s2 lex4 valid else .fall s2 lex4

/-- Indented-mode whitespace/layout phase of `scan` (scanner.c lines 476-607). -/
def scanIndented (s : Scanner) (lex : Lexer) (valid : TokenType → Bool) : ScanOut :=
  let lex1 := skip_horizontal_ws lex
  let at_newline := lookahead lex1 == 10 || lookahead lex1 == 13
  scanIndentedCore s at_newline (skip_newline_ws lex1) valid

/-- Operator and punctuation section of `scan` (scanner.c lines 877-1039):
two-character operators first, then single-character ones; every branch
leaves the scanner state untouched. -/
def scanOperator (s : Scanner) (lex : Lexer) (valid : TokenType → Bool) :
    Bool × Scanner × Lexer :=
  if lookahead lex = 61 then
    if lookahead (advance lex) = 61 ∧ valid .EQEQ then
      (true, s, result (advance (advance lex)) .EQEQ)
    else if valid .EQ then (true, s, result (advance lex) .EQ)
    else (false, s, advance lex)
  else if lookahead lex = 33 then
    if lookahead (advance lex) = 61 ∧ valid .NEQ then
      (true, s, result (advance (advance lex)) .NEQ)
    else if valid .EXCLAMATION then (true, s, result (advance lex) .EXCLAMATION)
    else (false, s, advance lex)
  else if lookahead lex = 60 then
    if lookahead (advance lex) = 60 ∧ valid .LSHIFT then
      (true, s, result (advance (advance lex)) .LSHIFT)
    else if lookahead (advance lex) = 61 ∧ valid .LTEQ then
      (true, s, result (advance (advance lex)) .LTEQ)
    else if valid .LT then (true, s, result (advance lex) .LT)
    else (false, s, advance lex)
  else if lookahead lex = 62 then
    if lookahead (advance lex) = 62 ∧ valid .RSHIFT then
      (true, s, result (advance (advance lex)) .RSHIFT)
    else if lookahead (advance lex) = 61 ∧ valid .GTEQ then
      (true, s, result (advance (advance lex)) .GTEQ)
    else if valid .GT then (true, s, result (advance lex) .GT)
    else (false, s, advance lex)
  else if lookahead lex = 43 then
    if lookahead (advance lex) = 61 ∧ valid .PLUSEQ then
      (true, s, result (advance (advance lex)) .PLUSEQ)
    else if valid .PLUS then (true, s, result (advance lex) .PLUS)
    else (false, s, advance lex)
  else if lookahead lex = 45 then
    if lookahead (advance lex) = 61 ∧ valid .MINUSEQ then
      (true, s, result (advance (advance lex)) .MINUSEQ)
    else if valid .MINUS then (true, s, result (advance lex) .MINUS)
    else (false, s, advance lex)
  else if lookahead lex = 42 then
    if lookahead (advance lex) = 61 ∧ valid .STAREQ then
      (true, s, result (advance (advance lex)) .STAREQ)
    else if valid .STAR then (true, s, result (advance lex) .STAR)
    else (false, s, advance lex)
  else if lookahead lex = 94 then
    if lookahead (advance lex) = 61 ∧ valid .CARETEQ then
      (true, s, result (advance (advance lex)) .CARETEQ)
    else if valid .CARET then (true, s, result (advance lex) .CARET)
    else (false, s, advance lex)
  else if lookahead lex = 38 then
    if lookahead (advance lex) = 38 ∧ valid .AMPAMP then
      (true, s, result (advance (advance lex)) .AMPAMP)
    else if valid .AMP then (true, s, result (advance lex) .AMP)
    else (false, s, advance lex)
  else if lookahead lex = 46 then
    if lookahead (advance lex) = 46 ∧ valid .DOTDOT then
      (true, s, result (advance (advance lex)) .DOTDOT)
    else if valid .DOT then (true, s, result (advance lex) .DOT)
    else (false, s, advance lex)
  else if lookahead lex = 124 ∧ valid .PIPE then (true, s, result (advance lex) .PIPE)
  else if lookahead lex = 126 ∧ valid .TILDE then (true, s, result (advance lex) .TILDE)
  else if lookahead lex = 47 ∧ valid .SLASH then (true, s, result (advance lex) .SLASH)
  else if lookahead lex = 37 ∧ valid .PERCENT then (true, s, result (advance lex) .PERCENT)
  else if lookahead lex = 58 ∧ valid .COLON then (true, s, result (advance lex) .COLON)
  else if lookahead lex = 44 ∧ valid .COMMA then (true, s, result (advance lex) .COMMA)
  else if lookahead lex = 59 ∧ valid .SEMICOLON then (true, s, result (advance lex) .SEMICOLON)
  else (false, s, lex)

/-- Concrete-token phase of `scan` (section 4, scanner.c lines 609-1039).
The C locals (`c`, `lexer` positions after `advance`, the word/result pairs
of the sub-scanners) are written inline. -/
def scanToken (s : Scanner) (lex : Lexer) (valid : TokenType → Bool) : Bool × Scanner × Lexer :=
  if eof lex then
    if valid .NEWLINE ∧ ¬s.eof_newline_emitted then
      (true, { s with eof_newline_emitted := true }, result lex .NEWLINE)
    else if valid .END_BLOCK ∧ (top_frame s).kind = .INDENTED ∧ 1 < s.depth then
      (true, pop_frame s, result lex .END_BLOCK)
    else (false, s, lex)
  else if lookahead lex = 35 then
    if lookahead (advance (mark_end lex)) = 124 then
      if valid .BLOCK_COMMENT then
        (true, s,
         result (mark_end (block_comment_loop 1 (advance (advance (mark_end lex)))))
           .BLOCK_COMMENT)
      else (false, s, advance (mark_end lex))
    else
      if valid .LINE_COMMENT then
        (true, s, result (mark_end (line_comment (advance (mark_end lex)))) .LINE_COMMENT)
      else (false, s, advance (mark_end lex))
  else if lookahead lex = 34 ∧ valid .BEGIN_STR then
    (true, { s with in_string := true }, result (advance lex) .BEGIN_STR)
  else if lookahead lex = 96 ∧ valid .END_INTERPOLATION then
    (true,
     { (if (top_frame s).kind = .INTERPOLATION then pop_frame s else s) with in_string := true },
     result (advance lex) .END_INTERPOLATION)
  else if lookahead lex = 92 then
    if lookahead (advance lex) = 40 ∧ valid .BACKSLASH_LPAREN then
      (true, push_frame s .PAREN 0, result (advance (advance lex)) .BACKSLASH_LPAREN)
    else (false, s, advance lex)
  else if lookahead lex = 40 ∧ valid .LPAREN then
    (true, push_frame s .PAREN 0, result (advance lex) .LPAREN)
  else if lookahead lex = 41 ∧ valid .RPAREN then
    (true, if (top_frame s).kind = .PAREN then pop_frame s else s,
     result (advance lex) .RPAREN)
  else if lookahead lex = 91 ∧ valid .LBRACKET then
    (true, push_frame s .BRACKET 0, result (advance lex) .LBRACKET)
  else if lookahead lex = 93 ∧ valid .RBRACKET then
    (true, if (top_frame s).kind = .BRACKET then pop_frame s else s,
     result (advance lex) .RBRACKET)
  else if lookahead lex = 123 ∧ valid .LBRACE then
    (true, push_frame s .INDENTED 0, result (advance lex) .LBRACE)
  else if lookahead lex = 125 ∧ valid .RBRACE then
    (true, if (top_frame s).kind = .INDENTED ∧ 1 < s.depth then pop_frame s else s,
     result (advance lex) .RBRACE)
  else if lookahead lex = 39 then
    if is_lower (lookahead (advance lex)) ∧ valid .LABEL then
      if lookahead (consume_id_chars [lookahead (advance lex)] (advance (advance lex))).2 = 39 ∧
          (consume_id_chars [lookahead (advance lex)] (advance (advance lex))).1.length = 1 ∧
          valid .CHAR_LITERAL then
        (true, s,
         result (advance (consume_id_chars [lookahead (advance lex)] (advance (advance lex))).2)
           .CHAR_LITERAL)
      else
        (true, s,
         result (mark_end (consume_id_chars [lookahead (advance lex)] (advance (advance lex))).2)
           .LABEL)
    else if valid .CHAR_LITERAL then
      if lookahead (if lookahead (advance lex) = 92 then advance (advance (advance lex))
          else if lookahead (advance lex) ≠ 39 ∧ lookahead (advance lex) ≠ 0 then
            advance (advance lex)
          else advance lex) = 39 then
        (true, s,
         result (advance (if lookahead (advance lex) = 92 then advance (advance (advance lex))
           else if lookahead (advance lex) ≠ 39 ∧ lookahead (advance lex) ≠ 0 then
             advance (advance lex)
           else advance lex)) .CHAR_LITERAL)
      else
        (false, s,
         if lookahead (advance lex) = 92 then advance (advance (advance lex))
         else if lookahead (advance lex) ≠ 39 ∧ lookahead (advance lex) ≠ 0 then
           advance (advance lex)
         else advance lex)
    else (false, s, advance lex)
  else if lookahead lex = 95 then
    if is_upper (lookahead (consume_while (fun ch => ch == 95) (mark_end (advance lex)))) then
      (true, s,
       result (mark_end (consume_while is_id_char
         (advance (consume_while (fun ch => ch == 95) (mark_end (advance lex)))))) .UPPER_ID)
    else if is_lower (lookahead (consume_while (fun ch => ch == 95) (mark_end (advance lex)))) then
      (true, s,
       result (mark_end (consume_while is_id_char
         (advance (consume_while (fun ch => ch == 95) (mark_end (advance lex)))))) .LOWER_ID)
    else if valid .UNDERSCORE then
      (true, s, result (consume_while (fun ch => ch == 95) (mark_end (advance lex))) .UNDERSCORE)
    else (false, s, consume_while (fun ch => ch == 95) (mark_end (advance lex)))
  else if is_upper (lookahead lex) then
    if (scan_upper_id valid lex).1 ≠ .TOKEN_COUNT ∧ valid (scan_upper_id valid lex).1 then
      (true, s, result (scan_upper_id valid lex).2 (scan_upper_id valid lex).1)
    else (false, s, (scan_upper_id valid lex).2)
  else if is_lower (lookahead lex) then
    if (scan_lower_id_or_keyword valid lex).1 ≠ .TOKEN_COUNT ∧
        valid (scan_lower_id_or_keyword valid lex).1 then
      (true, s, result (scan_lower_id_or_keyword valid lex).2 (scan_lower_id_or_keyword valid lex).1)
    else (false, s, (scan_lower_id_or_keyword valid lex).2)
  else if is_digit (lookahead lex) ∧ valid .INT_LITERAL then
    if (scan_int_literal lex).1 then
      (true, s, result (mark_end (scan_int_literal lex).2) .INT_LITERAL)
    else (false, s, (scan_int_literal lex).2)
  else scanOperator s lex valid

/-- Top-level `scan` (scanner.c lines 414-1040): pending dedents, then
string mode, then whitespace/layout, then concrete tokens. -/
def scan (s : Scanner) (lex : Lexer) (valid : TokenType → Bool) : Bool × Scanner × Lexer :=
  if 0 < s.pending_end_blocks ∧ valid .END_BLOCK then
    (true, pop_frame { s with pending_end_blocks := s.pending_end_blocks - 1 },
     result lex .END_BLOCK)
  else if s.in_string then
    scanString s lex valid
  else
    match (if in_non_indented s then scanNonIndented s lex valid else scanIndented s lex valid) with
    | .ret b s1 lex1 => (b, s1, lex1)
    | .fall s1 lex1 => scanToken s1 lex1 valid

/-- Byte encoding of a frame kind (`(char)scanner->stack[i].kind`). -/
def kindByte : FrameKind → Nat
  | .INDENTED => 0
  | .PAREN => 1
  | .BRACKET => 2
  | .INTERPOLATION => 3

/-- Decoding `(FrameKind)buffer[pos]`; bytes other than 0-3 never arise from
`serialize` and default to `INDENTED`. -/
def kindOfByte (b : Nat) : FrameKind :=
  if b = 1 then .PAREN else if b = 2 then .BRACKET else if b = 3 then .INTERPOLATION
  else .INDENTED

/-- Frame loop of `tree_sitter_fir_external_scanner_serialize`
(scanner.c lines 1065-1069): `n` frames remain, the next has index `i`,
and the write position is `4 + 3 * i`; `TREE_SITTER_SERIALIZATION_BUFFER_SIZE`
is 1024. -/
def serializeFrames (stack : List Frame) : Nat → Nat → List Nat
  | 0, _ => []
  | n + 1, i =>
    if 4 + 3 * i + 3 ≤ 1024 then
      kindByte (getF stack i).kind :: (getF stack i).block_col % 256 ::
        (getF stack i).block_col / 256 % 256 :: serializeFrames stack n (i + 1)
    else []

/-- `tree_sitter_fir_external_scanner_serialize` (scanner.c lines 1056-1072):
header bytes (`depth`, `pending_end_blocks`, `in_string`,
`eof_newline_emitted` as `char`s) followed by 3 bytes per live frame. -/
def serialize (s : Scanner) : List Nat :=
  s.depth % 256 :: s.pending_end_blocks % 256 :: (if s.in_string then 1 else 0) ::
    (if s.eof_newline_emitted then 1 else 0) :: serializeFrames s.stack s.depth 0

/-- Frame loop of `tree_sitter_fir_external_scanner_deserialize`
(scanner.c lines 1093-1097), writing into the existing stack array. -/
def deserializeFrames (buffer : List Nat) (length : Nat) : List Frame → Nat → Nat → List Frame
  | stack, 0, _ => stack
  | stack, n + 1, i =>
    if 4 + 3 * i + 3 ≤ length then
      deserializeFrames buffer length
        (setF stack i
          ⟨kindOfByte (getB buffer (4 + 3 * i)),
           getB buffer (4 + 3 * i + 1) + 256 * getB buffer (4 + 3 * i + 2)⟩)
        n (i + 1)
    else stack

/-- Reset of the scanner to the initial state (scanner.c lines 1077-1085 and,
identically, `tree_sitter_fir_external_scanner_create`). -/
def initialScanner (stack : List Frame) : Scanner :=
  { stack := setF stack 0 ⟨.INDENTED, 0⟩, depth := 1, pending_end_blocks := 0,
    in_string := false, eof_newline_emitted := false }

/-- `tree_sitter_fir_external_scanner_deserialize` (scanner.c lines 1074-1098);
`s0` is the scanner object being overwritten. -/
def deserialize (s0 : Scanner) (buffer : List Nat) (length : Nat) : Scanner :=
  if length = 0 then initialScanner s0.stack
  else
    { stack := deserializeFrames buffer length s0.stack (getB buffer 0) 0,
      depth := getB buffer 0,
      pending_end_blocks := getB buffer 1,
      in_string := getB buffer 2 != 0,
      eof_newline_emitted := getB buffer 3 != 0 }

/-- Count, following the specification's wording for the dedent rule: the
number of contiguous topmost `INDENTED` frames whose `block_col` exceeds
`col`, examined from the top frame (index `n - 1`) all the way down to the
sentinel. Used to compare the specified count with the loop the code runs. -/
def specDedentCount (stack : List Frame) (col : Nat) : Nat → Nat
  | 0 => 0
  | j + 1 =>
    if (getF stack j).kind = .INDENTED ∧ col < (getF stack j).block_col then
      1 + specDedentCount stack col j
    else 0

/-! Helper lemmas about the scanner state operations. -/

theorem push_frame_in_string (s : Scanner) (k : FrameKind) (c : Nat) :
    (push_frame s k c).in_string = s.in_string := by
  unfold push_frame; split <;> rfl

theorem pop_frame_in_string (s : Scanner) : (pop_frame s).in_string = s.in_string := by
  unfold pop_frame; split <;> rfl

theorem pop_frame_stack (s : Scanner) : (pop_frame s).stack = s.stack := by
  unfold pop_frame; split <;> rfl

theorem top_frame_pending (s : Scanner) (p : Nat) :
    top_frame { s with pending_end_blocks := p } = top_frame s := rfl

theorem top_frame_in_string (s : Scanner) (b : Bool) :
    top_frame { s with in_string := b } = top_frame s := rfl

theorem top_frame_eofn (s : Scanner) (b : Bool) :
    top_frame { s with eof_newline_emitted := b } = top_frame s := rfl

/-- The spec-worded dedent count agrees with the code's loop (which starts at
index `depth - 1` and stops before the sentinel at index 0) as soon as the
frame at index 0 cannot be counted. -/
theorem spec_count_eq (stack : List Frame) (col : Nat)
    (h0 : ¬((getF stack 0).kind = .INDENTED ∧ col < (getF stack 0).block_col)) :
    ∀ j : Nat, specDedentCount stack col (j + 1) = countDedents stack col j := by
  intro j
  induction j with
  | zero => simp [specDedentCount, countDedents, h0]
  | succ k ih =>
    show specDedentCount stack col (k + 1 + 1) = countDedents stack col (k + 1)
    rw [specDedentCount, countDedents, ih]

/-- C1: in indented mode, after crossing at least one newline, when the
lookahead column is strictly below the top frame's `block_col`, the scanner
computes the dedent count as the number of contiguous topmost `INDENTED`
frames whose `block_col` exceeds the column (at least one); with `NEWLINE`
valid it queues that count in `pending_end_blocks` and emits `NEWLINE`
without popping; otherwise with `END_BLOCK` valid it queues `count - 1`,
pops exactly one frame, and emits `END_BLOCK`. (`indentationCheck` is the
branch of `scan` that runs exactly when the call is in indented mode and
`at_newline` is set; the sentinel hypothesis is the documented shape of
stack slot 0.) -/
theorem C1_dedent_rule (s : Scanner) (lex : Lexer) (valid : TokenType → Bool)
    (hsent : getF s.stack 0 = ⟨.INDENTED, 0⟩)
    (hdep : 1 ≤ s.depth)
    (htop : (top_frame s).kind = .INDENTED)
    (hcol : lex.col < (top_frame s).block_col) :
    1 ≤ specDedentCount s.stack lex.col s.depth ∧
    (valid .NEWLINE = true →
      indentationCheck s lex valid =
        .ret true { s with pending_end_blocks := specDedentCount s.stack lex.col s.depth }
          (result lex .NEWLINE)) ∧
    (valid .NEWLINE = false → valid .END_BLOCK = true →
      indentationCheck s lex valid =
        .ret true { s with pending_end_blocks := specDedentCount s.stack lex.col s.depth - 1,
                           depth := s.depth - 1 }
          (result lex .END_BLOCK)) := by
  obtain ⟨st, sd, sp, si, se⟩ := s
  simp only [top_frame] at htop hcol
  simp only at hsent hdep htop hcol
  have hd2 : 2 ≤ sd := by
    rcases Nat.lt_or_ge sd 2 with h | h
    · exfalso
      have h1 : sd = 1 := by omega
      rw [h1] at hcol
      norm_num at hcol
      rw [hsent] at hcol
      simp at hcol
    · exact h
  have h0 : ¬((getF st 0).kind = .INDENTED ∧ lex.col < (getF st 0).block_col) := by
    rw [hsent]; simp
  have hbridge : specDedentCount st lex.col sd = countDedents st lex.col (sd - 1) := by
    obtain ⟨e, he⟩ : ∃ e, sd = e + 1 := ⟨sd - 1, by omega⟩
    subst he
    rw [Nat.add_sub_cancel]
    exact spec_count_eq st lex.col h0 e
  have hpos : 1 ≤ specDedentCount st lex.col sd := by
    obtain ⟨e, he⟩ : ∃ e, sd = e + 1 := ⟨sd - 1, by omega⟩
    subst he
    rw [Nat.add_sub_cancel] at htop hcol
    rw [specDedentCount, if_pos ⟨htop, hcol⟩]
    omega
  have hne : ¬(countDedents st lex.col (sd - 1) = 0) := by omega
  have h1lt : 1 < sd := by omega
  refine ⟨hpos, ?_, ?_⟩
  · intro hnl
    simp only [indentationCheck, top_frame]
    rw [if_pos hcol, if_pos hnl, if_neg hne, ← hbridge]
  · intro hnl hev
    simp only [indentationCheck, top_frame]
    rw [if_pos hcol, if_neg (by simp [hnl]), if_pos hev, if_neg hne, ← hbridge]
    simp [pop_frame, h1lt]

/-- Witness for C1 at a concrete dedent state. -/
theorem C1_dedent_rule_witness :
    1 ≤ specDedentCount [defFrame, ⟨.INDENTED, 4⟩] 0 2 ∧
    indentationCheck ⟨[defFrame, ⟨.INDENTED, 4⟩], 2, 0, false, false⟩ ⟨[120], 0, 0, none, none⟩
        (fun t => decide (t = .NEWLINE)) =
      .ret true ⟨[defFrame, ⟨.INDENTED, 4⟩], 2, 1, false, false⟩
        (result ⟨[120], 0, 0, none, none⟩ .NEWLINE) := by
  have h := C1_dedent_rule ⟨[defFrame, ⟨.INDENTED, 4⟩], 2, 0, false, false⟩
    ⟨[120], 0, 0, none, none⟩ (fun t => decide (t = .NEWLINE))
    (by decide) (by decide) (by decide) (by decide)
  exact ⟨h.1, h.2.1 (by decide)⟩

/-- A positive `indented_frames_above_delimiter` count forces the top frame
to be `INDENTED` (the loop counts from the top of the stack). -/
theorem indentedAbove_pos (stack : List Frame) (n : Nat)
    (h : 1 ≤ indentedAbove stack n) :
    1 ≤ n ∧ (getF stack (n - 1)).kind = .INDENTED := by
  cases n with
  | zero => simp [indentedAbove] at h
  | succ m =>
    refine ⟨by omega, ?_⟩
    rw [indentedAbove] at h
    by_cases hk : (getF stack m).kind = .INDENTED
    · simpa using hk
    · rw [if_neg hk] at h; omega

/-- C2: in indented mode with no pending dedents and string mode off, when
the lookahead is `)`, `]`, `,` or `}` and there is at least one contiguous
topmost `INDENTED` frame (`indented_frames_above_delimiter`), the scanner
queues exactly that count in `pending_end_blocks` and emits `NEWLINE` when
`NEWLINE` is valid — closing the indented frames through pending
`END_BLOCK`s before the delimiter is consumed — and otherwise, when
`END_BLOCK` is valid and `depth > 1`, pops exactly one frame and emits
`END_BLOCK`. (`delimiterCheck` is the corresponding branch of
`scanIndented`, which `scan` reaches exactly under those mode conditions.) -/
theorem C2_delimiter_autoclose (s : Scanner) (lex : Lexer) (valid : TokenType → Bool)
    (hla : lookahead lex = 41 ∨ lookahead lex = 93 ∨ lookahead lex = 44 ∨ lookahead lex = 125)
    (hcnt : 1 ≤ indented_frames_above_delimiter s) :
    (valid .NEWLINE = true →
      delimiterCheck s lex valid =
        .ret true { s with pending_end_blocks := indented_frames_above_delimiter s }
          (result lex .NEWLINE)) ∧
    (valid .NEWLINE = false → valid .END_BLOCK = true → 1 < s.depth →
      delimiterCheck s lex valid =
        .ret true { s with depth := s.depth - 1 } (result lex .END_BLOCK)) := by
  obtain ⟨st, sd, sp, si, se⟩ := s
  simp only [indented_frames_above_delimiter] at hcnt ⊢
  have htop : (getF st (sd - 1)).kind = .INDENTED := (indentedAbove_pos st sd hcnt).2
  constructor
  · intro hnl
    simp only [delimiterCheck, indented_frames_above_delimiter]
    rw [if_pos hla, if_pos hnl, if_pos (show 0 < indentedAbove st sd by omega)]
  · intro hnl hev hd
    have hd : 1 < sd := hd
    simp only [delimiterCheck, top_frame]
    rw [if_pos hla, if_neg (by simp [hnl]), if_pos ⟨hev, htop, hd⟩]
    simp [pop_frame, hd]

/-- Witness for C2 at a concrete auto-close state. -/
theorem C2_delimiter_autoclose_witness :
    delimiterCheck ⟨[defFrame, ⟨.INDENTED, 4⟩], 2, 0, false, false⟩ ⟨[41], 0, 0, none, none⟩
        (fun t => decide (t = .NEWLINE)) =
      .ret true ⟨[defFrame, ⟨.INDENTED, 4⟩], 2, 2, false, false⟩
        (result ⟨[41], 0, 0, none, none⟩ .NEWLINE) ∧
    delimiterCheck ⟨[defFrame, ⟨.INDENTED, 4⟩], 2, 0, false, false⟩ ⟨[41], 0, 0, none, none⟩
        (fun t => decide (t = .END_BLOCK)) =
      .ret true ⟨[defFrame, ⟨.INDENTED, 4⟩], 1, 0, false, false⟩
        (result ⟨[41], 0, 0, none, none⟩ .END_BLOCK) := by
  constructor
  · exact (C2_delimiter_autoclose ⟨[defFrame, ⟨.INDENTED, 4⟩], 2, 0, false, false⟩
      ⟨[41], 0, 0, none, none⟩ (fun t => decide (t = .NEWLINE))
      (by decide) (by decide)).1 (by decide)
  · exact (C2_delimiter_autoclose ⟨[defFrame, ⟨.INDENTED, 4⟩], 2, 0, false, false⟩
      ⟨[41], 0, 0, none, none⟩ (fun t => decide (t = .END_BLOCK))
      (by decide) (by decide)).2 (by decide) (by decide) (by decide)

/-- C4 counterexample: at the state with `depth = 1` and
`pending_end_blocks = 1` (reachable, since the delimiter auto-close counts
the sentinel frame into `indented_frames_above_delimiter`), a scan call with
`END_BLOCK` valid decrements the counter and emits `END_BLOCK`, but pops no
frame: `depth` stays 1 because `pop_frame` is a no-op on the sentinel. The
claim's "pops exactly one frame" is therefore false at this input. -/
theorem C4_counterexample :
    0 < (⟨[defFrame], 1, 1, false, false⟩ : Scanner).pending_end_blocks ∧
    (fun _ : TokenType => true) TokenType.END_BLOCK = true ∧
    scan ⟨[defFrame], 1, 1, false, false⟩ ⟨[], 0, 0, none, none⟩ (fun _ => true) =
      (true, ⟨[defFrame], 1, 0, false, false⟩, ⟨[], 0, 0, none, some .END_BLOCK⟩) ∧
    (scan ⟨[defFrame], 1, 1, false, false⟩ ⟨[], 0, 0, none, none⟩ (fun _ => true)).2.1.depth =
      (⟨[defFrame], 1, 1, false, false⟩ : Scanner).depth := by
  refine ⟨by decide, by decide, by decide, by decide⟩

/-- C4 (amended): if at the start of a scan call `pending_end_blocks > 0`,
`END_BLOCK` is valid, and `depth > 1` (so a live frame exists above the
sentinel — `pop_frame` is a no-op otherwise), the call decrements
`pending_end_blocks` by one, pops exactly one frame, emits `END_BLOCK`, and
returns true before any other processing, leaving every other state field
unchanged and consuming no input. -/
theorem C4_pending_dedent (s : Scanner) (lex : Lexer) (valid : TokenType → Bool)
    (hp : 0 < s.pending_end_blocks) (hv : valid .END_BLOCK = true) (hd : 1 < s.depth) :
    scan s lex valid =
      (true, { s with pending_end_blocks := s.pending_end_blocks - 1, depth := s.depth - 1 },
       { lex with resultSymbol := some .END_BLOCK }) := by
  obtain ⟨st, sd, sp, si, se⟩ := s
  have hp : 0 < sp := hp
  have hd : 1 < sd := hd
  simp only [scan]
  rw [if_pos ⟨hp, hv⟩]
  simp [pop_frame, result, hd]

/-- Witness for C4 (amended) at a concrete state. -/
theorem C4_pending_dedent_witness :
    scan ⟨[defFrame, ⟨.INDENTED, 4⟩], 2, 2, false, false⟩ ⟨[120], 0, 0, none, none⟩
        (fun _ => true) =
      (true, ⟨[defFrame, ⟨.INDENTED, 4⟩], 1, 1, false, false⟩,
       ⟨[120], 0, 0, none, some .END_BLOCK⟩) := by
  exact C4_pending_dedent ⟨[defFrame, ⟨.INDENTED, 4⟩], 2, 2, false, false⟩
    ⟨[120], 0, 0, none, none⟩ (fun _ => true) (by decide) (by decide) (by decide)

/-- C10: when the scanner emits `RPAREN` (resp. `RBRACKET`, `RBRACE`), the
top frame is popped only when its kind is `PAREN` (resp. `BRACKET`, resp.
`INDENTED` with `depth > 1`); on a mismatch the token is still emitted and
the call returns true with the frame stack (depth and all frames)
completely unchanged. `scanToken` is the only phase of `scan` that emits
these tokens. -/
theorem C10_closing_tokens (s : Scanner) (lex : Lexer) (valid : TokenType → Bool)
    (rest : List Nat) :
    (lex.input = 41 :: rest → valid .RPAREN = true →
      scanToken s lex valid =
        (true, if (top_frame s).kind = .PAREN then pop_frame s else s,
         { lex with input := rest, col := lex.col + 1, consumed := lex.consumed + 1,
                    resultSymbol := some .RPAREN })) ∧
    (lex.input = 93 :: rest → valid .RBRACKET = true →
      scanToken s lex valid =
        (true, if (top_frame s).kind = .BRACKET then pop_frame s else s,
         { lex with input := rest, col := lex.col + 1, consumed := lex.consumed + 1,
                    resultSymbol := some .RBRACKET })) ∧
    (lex.input = 125 :: rest → valid .RBRACE = true →
      scanToken s lex valid =
        (true, if (top_frame s).kind = .INDENTED ∧ 1 < s.depth then pop_frame s else s,
         { lex with input := rest, col := lex.col + 1, consumed := lex.consumed + 1,
                    resultSymbol := some .RBRACE })) := by
  obtain ⟨input, col, consumed, marked, resultSymbol⟩ := lex
  refine ⟨?_, ?_, ?_⟩ <;> intro hin hv <;> subst hin <;>
    simp [scanToken, lookahead, eof, advance, result, hv, is_upper, is_lower, is_digit]

/-- Witness for C10 at concrete matching and non-matching stacks. -/
theorem C10_closing_tokens_witness :
    scanToken ⟨[defFrame, ⟨.PAREN, 0⟩], 2, 0, false, false⟩ ⟨[41], 0, 0, none, none⟩
        (fun _ => true) =
      (true, ⟨[defFrame, ⟨.PAREN, 0⟩], 1, 0, false, false⟩,
       ⟨[], 1, 1, none, some .RPAREN⟩) ∧
    scanToken ⟨[defFrame, ⟨.PAREN, 0⟩], 2, 0, false, false⟩ ⟨[93], 0, 0, none, none⟩
        (fun _ => true) =
      (true, ⟨[defFrame, ⟨.PAREN, 0⟩], 2, 0, false, false⟩,
       ⟨[], 1, 1, none, some .RBRACKET⟩) ∧
    scanToken ⟨[defFrame, ⟨.INDENTED, 4⟩], 2, 0, false, false⟩ ⟨[125], 0, 0, none, none⟩
        (fun _ => true) =
      (true, ⟨[defFrame, ⟨.INDENTED, 4⟩], 1, 0, false, false⟩,
       ⟨[], 1, 1, none, some .RBRACE⟩) := by
  refine ⟨?_, ?_, ?_⟩
  · have h := (C10_closing_tokens ⟨[defFrame, ⟨.PAREN, 0⟩], 2, 0, false, false⟩
      ⟨[41], 0, 0, none, none⟩ (fun _ => true) []).1 rfl rfl
    rw [h]; decide
  · have h := (C10_closing_tokens ⟨[defFrame, ⟨.PAREN, 0⟩], 2, 0, false, false⟩
      ⟨[93], 0, 0, none, none⟩ (fun _ => true) []).2.1 rfl rfl
    rw [h]; decide
  · have h := (C10_closing_tokens ⟨[defFrame, ⟨.INDENTED, 4⟩], 2, 0, false, false⟩
      ⟨[125], 0, 0, none, none⟩ (fun _ => true) []).2.2 rfl rfl
    rw [h]; decide

/-! Lemmas for the serialization round trip. -/

theorem setF_length : ∀ (l : List Frame) (i : Nat) (f : Frame), (setF l i f).length = l.length := by
  intro l
  induction l with
  | nil => intro i f; rfl
  | cons a t ih =>
    intro i f
    cases i with
    | zero => rfl
    | succ j => simp [setF, ih]

theorem getF_setF_self : ∀ (l : List Frame) (i : Nat) (f : Frame),
    i < l.length → getF (setF l i f) i = f := by
  intro l
  induction l with
  | nil => intro i f h; simp at h
  | cons a t ih =>
    intro i f h
    cases i with
    | zero => rfl
    | succ j => exact ih j f (by simpa using h)

theorem getF_setF_ne : ∀ (l : List Frame) (i j : Nat) (f : Frame),
    i ≠ j → getF (setF l i f) j = getF l j := by
  intro l
  induction l with
  | nil => intro i j f _; rfl
  | cons a t ih =>
    intro i j f hne
    cases i with
    | zero =>
      cases j with
      | zero => exact absurd rfl hne
      | succ j' => rfl
    | succ i' =>
      cases j with
      | zero => rfl
      | succ j' => exact ih i' j' f (by omega)

theorem serializeFrames_length (stack : List Frame) :
    ∀ (n i : Nat), i + n ≤ 128 → (serializeFrames stack n i).length = 3 * n := by
  intro n
  induction n with
  | zero => intro i _; rfl
  | succ m ih =>
    intro i hb
    rw [serializeFrames, if_pos (by omega)]
    simp only [List.length_cons, ih (i + 1) (by omega)]
    ring

theorem getB_cons3 (a b c : Nat) (l : List Nat) (m : Nat) :
    getB (a :: b :: c :: l) (3 * m + 3) = getB l (3 * m) := rfl

theorem getB_cons3p1 (a b c : Nat) (l : List Nat) (m : Nat) :
    getB (a :: b :: c :: l) (3 * m + 4) = getB l (3 * m + 1) := rfl

theorem getB_cons3p2 (a b c : Nat) (l : List Nat) (m : Nat) :
    getB (a :: b :: c :: l) (3 * m + 5) = getB l (3 * m + 2) := rfl

theorem serializeFrames_getB (stack : List Frame) :
    ∀ (n i j : Nat), j < n → i + n ≤ 128 →
      getB (serializeFrames stack n i) (3 * j) = kindByte (getF stack (i + j)).kind ∧
      getB (serializeFrames stack n i) (3 * j + 1) = (getF stack (i + j)).block_col % 256 ∧
      getB (serializeFrames stack n i) (3 * j + 2) = (getF stack (i + j)).block_col / 256 % 256 := by
  intro n
  induction n with
  | zero => intro i j hj _; omega
  | succ m ih =>
    intro i j hj hb
    rw [serializeFrames, if_pos (by omega)]
    cases j with
    | zero => simp [getB]
    | succ j' =>
      have e0 : 3 * (j' + 1) = 3 * j' + 3 := by ring
      have e1 : 3 * (j' + 1) + 1 = 3 * j' + 4 := by ring
      have e2 : 3 * (j' + 1) + 2 = 3 * j' + 5 := by ring
      have eI : i + (j' + 1) = (i + 1) + j' := by ring
      rw [e2, e1, e0, eI, getB_cons3, getB_cons3p1, getB_cons3p2]
      exact ih (i + 1) j' (by omega) (by omega)

theorem deserializeFrames_getF (buf : List Nat) (L dep : Nat) (hL : L = 4 + 3 * dep)
    (hdep : dep ≤ 128) :
    ∀ (n i : Nat) (stack0 : List Frame), i + n = dep → 128 ≤ stack0.length →
      ∀ k, getF (deserializeFrames buf L stack0 n i) k =
        if i ≤ k ∧ k < dep then
          ⟨kindOfByte (getB buf (4 + 3 * k)),
           getB buf (4 + 3 * k + 1) + 256 * getB buf (4 + 3 * k + 2)⟩
        else getF stack0 k := by
  intro n
  induction n with
  | zero =>
    intro i stack0 hin _ k
    rw [deserializeFrames, if_neg (by omega)]
  | succ m ih =>
    intro i stack0 hin hs0 k
    rw [deserializeFrames, if_pos (by omega)]
    rw [ih (i + 1) _ (by omega) (by rw [setF_length]; exact hs0) k]
    by_cases h1 : i + 1 ≤ k ∧ k < dep
    · rw [if_pos h1, if_pos (by omega)]
    · rw [if_neg h1]
      by_cases h2 : i ≤ k ∧ k < dep
      · have hk : k = i := by omega
        subst hk
        rw [if_pos h2, getF_setF_self _ _ _ (by omega)]
      · rw [if_neg h2, getF_setF_ne _ _ _ _ (by omega)]

theorem kindOfByte_kindByte : ∀ k : FrameKind, kindOfByte (kindByte k) = k := by
  intro k; cases k <;> rfl

theorem getB_serialize_frame (s : Scanner) (k : Nat) :
    getB (serialize s) (4 + 3 * k) = getB (serializeFrames s.stack s.depth 0) (3 * k) ∧
    getB (serialize s) (4 + 3 * k + 1) = getB (serializeFrames s.stack s.depth 0) (3 * k + 1) ∧
    getB (serialize s) (4 + 3 * k + 2) = getB (serializeFrames s.stack s.depth 0) (3 * k + 2) := by
  refine ⟨?_, ?_, ?_⟩
  · have e : 4 + 3 * k = 3 * k + 4 := by ring
    rw [serialize, e]; rfl
  · have e : 4 + 3 * k + 1 = 3 * k + 5 := by ring
    rw [serialize, e]; rfl
  · have e : 4 + 3 * k + 2 = 3 * k + 3 + 3 := by ring
    rw [serialize, e]; rfl

/-- C3: for every scanner state with `1 ≤ depth ≤ 128` (and any
`pending_end_blocks < 256`, flags, and frames with `block_col < 2^16` —
the ranges of the `uint8_t`/`uint16_t` fields), deserializing the buffer
and length produced by `serialize` restores the state: same `depth`,
`pending_end_blocks`, `in_string` and `eof_newline_emitted`, and the first
`depth` stack frames identical in kind and `block_col` (the C scanner being
overwritten, `s0`, may hold any state whose stack array has the full 128
slots). -/
theorem C3_roundtrip (s s0 : Scanner)
    (hd1 : 1 ≤ s.depth) (hd128 : s.depth ≤ 128) (hp : s.pending_end_blocks < 256)
    (hs0 : 128 ≤ s0.stack.length)
    (hcols : ∀ i, i < s.depth → (getF s.stack i).block_col < 65536) :
    (deserialize s0 (serialize s) (serialize s).length).depth = s.depth ∧
    (deserialize s0 (serialize s) (serialize s).length).pending_end_blocks =
      s.pending_end_blocks ∧
    (deserialize s0 (serialize s) (serialize s).length).in_string = s.in_string ∧
    (deserialize s0 (serialize s) (serialize s).length).eof_newline_emitted =
      s.eof_newline_emitted ∧
    ∀ i, i < s.depth →
      getF (deserialize s0 (serialize s) (serialize s).length).stack i = getF s.stack i := by
  have hlen : (serialize s).length = 4 + 3 * s.depth := by
    simp [serialize, serializeFrames_length s.stack s.depth 0 (by omega)]
    omega
  have hb0 : getB (serialize s) 0 = s.depth := by
    show s.depth % 256 = s.depth
    omega
  have hb1 : getB (serialize s) 1 = s.pending_end_blocks := by
    show s.pending_end_blocks % 256 = s.pending_end_blocks
    omega
  have hdes : deserialize s0 (serialize s) (serialize s).length =
      { stack := deserializeFrames (serialize s) (serialize s).length s0.stack
          (getB (serialize s) 0) 0,
        depth := getB (serialize s) 0,
        pending_end_blocks := getB (serialize s) 1,
        in_string := getB (serialize s) 2 != 0,
        eof_newline_emitted := getB (serialize s) 3 != 0 } := by
    rw [deserialize, if_neg (by omega)]
  rw [hdes]
  refine ⟨hb0, hb1, ?_, ?_, ?_⟩
  · show (getB (serialize s) 2 != 0) = s.in_string
    cases hst : s.in_string <;> simp [serialize, getB, hst]
  · show (getB (serialize s) 3 != 0) = s.eof_newline_emitted
    cases hst : s.eof_newline_emitted <;> simp [serialize, getB, hst]
  · intro i hi
    rw [hb0]
    rw [deserializeFrames_getF (serialize s) (serialize s).length s.depth hlen hd128
      s.depth 0 s0.stack (by omega) hs0 i]
    rw [if_pos ⟨by omega, hi⟩]
    obtain ⟨g0, g1, g2⟩ := getB_serialize_frame s i
    obtain ⟨f0, f1, f2⟩ := serializeFrames_getB s.stack s.depth 0 i hi (by omega)
    rw [g0, g1, g2, f0, f1, f2]
    simp only [Nat.zero_add]
    have hc := hcols i hi
    have hcol : (getF s.stack i).block_col % 256 +
        256 * ((getF s.stack i).block_col / 256 % 256) = (getF s.stack i).block_col := by
      omega
    rw [kindOfByte_kindByte, hcol]

/-- Witness for C3 at a concrete two-frame state. -/
theorem C3_roundtrip_witness :
    (deserialize ⟨List.replicate 128 defFrame, 5, 7, false, true⟩
        (serialize ⟨List.replicate 128 defFrame, 2, 3, true, false⟩)
        (serialize ⟨List.replicate 128 defFrame, 2, 3, true, false⟩).length).depth = 2 ∧
    (∀ i, i < 2 →
      getF (deserialize ⟨List.replicate 128 defFrame, 5, 7, false, true⟩
        (serialize ⟨List.replicate 128 defFrame, 2, 3, true, false⟩)
        (serialize ⟨List.replicate 128 defFrame, 2, 3, true, false⟩).length).stack i =
      getF (List.replicate 128 defFrame) i) := by
  have h := C3_roundtrip ⟨List.replicate 128 defFrame, 2, 3, true, false⟩
    ⟨List.replicate 128 defFrame, 5, 7, false, true⟩
    (by decide) (by decide) (by decide) (by simp) (by decide)
  exact ⟨h.1, h.2.2.2.2⟩

/-! Run lemmas for the character-consumption loops. -/

theorem is_id_char_ne10 (c : Nat) (h : is_id_char c = true) : c ≠ 10 := by
  intro he
  subst he
  exact absurd h (by decide)

theorem is_lower_ne10 (c : Nat) (h : is_lower c = true) : c ≠ 10 := by
  intro he
  subst he
  exact absurd h (by decide)

theorem is_lower_ne95 (c : Nat) (h : is_lower c = true) : c ≠ 95 := by
  intro he
  subst he
  exact absurd h (by decide)

theorem is_upper_ne95 (c : Nat) (h : is_upper c = true) : c ≠ 95 := by
  intro he
  subst he
  exact absurd h (by decide)

/-- Behavior of `consume_while_go` over a maximal run: all run characters
satisfy `p` (and are not newlines, fixing the column arithmetic), the first
character of `rest` does not, and the fuel covers the run. -/
theorem consume_while_run (p : Nat → Bool) :
    ∀ (run rest : List Nat) (lex : Lexer) (fuel : Nat),
      (∀ c ∈ run, p c = true ∧ c ≠ 10) →
      p (rest.headD 0) = false →
      lex.input = run ++ rest →
      run.length ≤ fuel →
      consume_while_go p fuel lex =
        { lex with input := rest, col := lex.col + run.length,
                   consumed := lex.consumed + run.length } := by
  intro run
  induction run with
  | nil =>
    intro rest lex fuel _ hrest hin _
    obtain ⟨inp, colv, conv, mv, rv⟩ := lex
    simp only [List.nil_append] at hin
    subst hin
    cases fuel with
    | zero => simp [consume_while_go]
    | succ f =>
      rw [consume_while_go, if_neg (by simpa [lookahead] using hrest)]
      simp
  | cons c run' ih =>
    intro rest lex fuel hrun hrest hin hfuel
    obtain ⟨inp, colv, conv, mv, rv⟩ := lex
    simp only [List.cons_append] at hin
    subst hin
    cases fuel with
    | zero => simp at hfuel
    | succ f =>
      have hc := hrun c (by simp)
      have hlac : lookahead (⟨c :: (run' ++ rest), colv, conv, mv, rv⟩ : Lexer) = c := rfl
      rw [consume_while_go, if_pos (by rw [hlac, hc.1])]
      have hadv : advance ⟨c :: (run' ++ rest), colv, conv, mv, rv⟩ =
          ⟨run' ++ rest, colv + 1, conv + 1, mv, rv⟩ := by
        simp [advance, hlac, hc.2]
      rw [hadv, ih rest _ f (fun d hd => hrun d (by simp [hd])) hrest rfl (by simpa using hfuel)]
      simp only [Lexer.mk.injEq, List.length_cons, true_and, and_true]
      all_goals omega

/-- Behavior of the bounded loop `consume_id_chars_go` when the run fits in
the 63-byte word buffer: the whole run is consumed and appended. -/
theorem consume_id_chars_run :
    ∀ (run rest word : List Nat) (lex : Lexer) (fuel : Nat),
      (∀ c ∈ run, is_id_char c = true) →
      is_id_char (rest.headD 0) = false →
      word.length + run.length ≤ 63 →
      lex.input = run ++ rest →
      run.length ≤ fuel →
      consume_id_chars_go fuel word lex =
        (word ++ run,
         { lex with input := rest, col := lex.col + run.length,
                    consumed := lex.consumed + run.length }) := by
  intro run
  induction run with
  | nil =>
    intro rest word lex fuel _ hrest _ hin _
    obtain ⟨inp, colv, conv, mv, rv⟩ := lex
    simp only [List.nil_append] at hin
    subst hin
    cases fuel with
    | zero => simp [consume_id_chars_go]
    | succ f =>
      rw [consume_id_chars_go,
        if_neg (fun hc => absurd hc.1 (by simpa [lookahead] using hrest))]
      simp
  | cons c run' ih =>
    intro rest word lex fuel hrun hrest hbound hin hfuel
    obtain ⟨inp, colv, conv, mv, rv⟩ := lex
    simp only [List.cons_append] at hin
    subst hin
    cases fuel with
    | zero => simp at hfuel
    | succ f =>
      have hc := hrun c (by simp)
      have hlt : word.length < 63 := by
        simp only [List.length_cons] at hbound
        omega
      have hlac : lookahead (⟨c :: (run' ++ rest), colv, conv, mv, rv⟩ : Lexer) = c := rfl
      rw [consume_id_chars_go, if_pos ⟨by rw [hlac, hc], hlt⟩, hlac]
      have hadv : advance ⟨c :: (run' ++ rest), colv, conv, mv, rv⟩ =
          ⟨run' ++ rest, colv + 1, conv + 1, mv, rv⟩ := by
        simp [advance, hlac, is_id_char_ne10 c hc]
      rw [hadv, ih rest (word ++ [c]) _ f (fun d hd => hrun d (by simp [hd])) hrest
        (by simp only [List.length_append, List.length_cons, List.length_nil] at hbound ⊢
            omega)
        rfl (by simpa using hfuel)]
      simp only [Prod.mk.injEq, Lexer.mk.injEq, List.length_cons, List.append_assoc,
        List.cons_append, List.nil_append, true_and, and_true]
      all_goals omega

/-- Behavior of `consume_id_chars_go` when the run overflows the 63-byte
word buffer: consumption stops after exactly `63 - word.length` characters. -/
theorem consume_id_chars_clamp :
    ∀ (run rest word : List Nat) (lex : Lexer) (fuel : Nat),
      (∀ c ∈ run, is_id_char c = true) →
      word.length ≤ 63 →
      63 ≤ word.length + run.length →
      lex.input = run ++ rest →
      run.length ≤ fuel →
      consume_id_chars_go fuel word lex =
        (word ++ run.take (63 - word.length),
         { lex with input := run.drop (63 - word.length) ++ rest,
                    col := lex.col + (63 - word.length),
                    consumed := lex.consumed + (63 - word.length) }) := by
  intro run
  induction run with
  | nil =>
    intro rest word lex fuel _ hw hbound hin _
    have hw63 : word.length = 63 := by
      simp only [List.length_nil] at hbound
      omega
    have hz : 63 - word.length = 0 := by omega
    obtain ⟨inp, colv, conv, mv, rv⟩ := lex
    simp only [List.nil_append] at hin
    subst hin
    rw [hz]
    cases fuel with
    | zero => simp [consume_id_chars_go]
    | succ f =>
      rw [consume_id_chars_go, if_neg (fun hc => absurd hc.2 (by omega))]
      simp
  | cons c run' ih =>
    intro rest word lex fuel hrun hw hbound hin hfuel
    obtain ⟨inp, colv, conv, mv, rv⟩ := lex
    simp only [List.cons_append] at hin
    subst hin
    by_cases hlt : word.length < 63
    · cases fuel with
      | zero => simp at hfuel
      | succ f =>
        have hc := hrun c (by simp)
        have hlac : lookahead (⟨c :: (run' ++ rest), colv, conv, mv, rv⟩ : Lexer) = c := rfl
        rw [consume_id_chars_go, if_pos ⟨by rw [hlac, hc], hlt⟩, hlac]
        have hadv : advance ⟨c :: (run' ++ rest), colv, conv, mv, rv⟩ =
            ⟨run' ++ rest, colv + 1, conv + 1, mv, rv⟩ := by
          simp [advance, hlac, is_id_char_ne10 c hc]
        rw [hadv, ih rest (word ++ [c]) _ f (fun d hd => hrun d (by simp [hd]))
          (by simp only [List.length_append, List.length_cons, List.length_nil]
              omega)
          (by simp only [List.length_append, List.length_cons, List.length_nil] at hbound ⊢
              omega)
          rfl (by simpa using hfuel)]
        have hsplit : 63 - word.length = (63 - (word ++ [c]).length) + 1 := by
          simp only [List.length_append, List.length_cons, List.length_nil]
          omega
        rw [hsplit, List.take_succ_cons, List.drop_succ_cons]
        simp only [Prod.mk.injEq, Lexer.mk.injEq, List.append_assoc, List.cons_append,
          List.nil_append, List.length_append, List.length_cons, List.length_nil,
          true_and, and_true]
        all_goals omega
    · have hw63 : word.length = 63 := by omega
      have hz : 63 - word.length = 0 := by omega
      rw [hz]
      cases fuel with
      | zero => simp [consume_id_chars_go]
      | succ f =>
        rw [consume_id_chars_go, if_neg (fun hc => absurd hc.2 (by omega))]
        simp

/-- The leading-underscore loop exits immediately when the lookahead is not
an underscore. -/
theorem consume_uscores_exit (fuel : Nat) (word : List Nat) (lex : Lexer)
    (h : lookahead lex ≠ 95) : consume_uscores_go fuel word lex = (word, lex) := by
  cases fuel with
  | zero => rfl
  | succ f =>
    rw [consume_uscores_go, if_neg (fun hc => h hc.1)]

/-- Keyword lookup misses every entry once the word is 63 bytes long. -/
theorem lookup_keyword_long : ∀ (tbl : List (List Nat × TokenType)) (word : List Nat),
    (∀ pr ∈ tbl, pr.1.length ≤ 8) → 63 ≤ word.length →
    lookup_keyword tbl word = .LOWER_ID := by
  intro tbl
  induction tbl with
  | nil => intro word _ _; rfl
  | cons pr rest ih =>
    intro word hlen hw
    obtain ⟨kw, tok⟩ := pr
    rw [lookup_keyword, if_neg ?_]
    · exact ih word (fun q hq => hlen q (by simp [hq])) hw
    · intro he
      have h8 := hlen (kw, tok) (by simp)
      rw [he] at h8
      simp only at h8
      omega

theorem keywords_short : ∀ pr ∈ keywords, pr.1.length ≤ 8 := by decide

/-- C7 counterexample: on an input of 64 identifier bytes (all `a`), the
claim says the emitted `LOWER_ID` extends over the entire 64-byte run with
only the keyword buffer clamped; but `scan_lower_id_or_keyword` stops
consuming at 63 bytes — one identifier byte is left in the input and the
token end mark is at 63. -/
theorem C7_counterexample :
    (scan_lower_id_or_keyword (fun _ => true) ⟨List.replicate 64 97, 0, 0, none, none⟩).1 =
      .LOWER_ID ∧
    (scan_lower_id_or_keyword (fun _ => true) ⟨List.replicate 64 97, 0, 0, none, none⟩).2.input =
      [97] ∧
    (scan_lower_id_or_keyword (fun _ => true) ⟨List.replicate 64 97, 0, 0, none, none⟩).2.marked =
      some 63 := by
  refine ⟨by decide, by decide, by decide⟩

/-- C7 (amended): for every identifier run longer than 63 bytes that starts
with a letter, `scan_lower_id_or_keyword` (resp. `scan_upper_id`) consumes
exactly 63 bytes and marks the token end there, so the emitted `LOWER_ID`
(resp. `UPPER_ID`) covers only the first 63 bytes of the run, with the rest
of the run left in the input; the 63-byte keyword buffer then matches no
keyword (and is not `Fn`), so the token kind is `LOWER_ID` (resp.
`UPPER_ID`) for every valid-token bitmap. -/
theorem C7_clamped_identifier (valid : TokenType → Bool) (lex : Lexer) (run rest : List Nat)
    (hrun : ∀ c ∈ run, is_id_char c = true)
    (_hrest : is_id_char (rest.headD 0) = false)
    (hlong : 63 < run.length)
    (hin : lex.input = run ++ rest) :
    (is_lower (run.headD 0) = true →
      scan_lower_id_or_keyword valid lex =
        (.LOWER_ID,
         { lex with input := run.drop 63 ++ rest, col := lex.col + 63,
                    consumed := lex.consumed + 63, marked := some (lex.consumed + 63) })) ∧
    (is_upper (run.headD 0) = true →
      scan_upper_id valid lex =
        (.UPPER_ID,
         { lex with input := run.drop 63 ++ rest, col := lex.col + 63,
                    consumed := lex.consumed + 63, marked := some (lex.consumed + 63) })) := by
  obtain ⟨inp, colv, conv, mv, rv⟩ := lex
  cases run with
  | nil => simp at hlong
  | cons c run' =>
  simp only [List.cons_append] at hin
  subst hin
  simp only [List.headD_cons]
  have hrun' : ∀ d ∈ run', is_id_char d = true := fun d hd => hrun d (by simp [hd])
  have hlong' : 63 ≤ run'.length := by
    simp only [List.length_cons] at hlong
    omega
  have hlen62 : (run'.take 62).length = 62 := by
    rw [List.length_take]
    omega
  constructor
  · intro hlow
    have hc10 : c ≠ 10 := is_lower_ne10 c hlow
    simp only [scan_lower_id_or_keyword]
    rw [show consume_uscores [] (⟨c :: (run' ++ rest), colv, conv, mv, rv⟩ : Lexer) =
          ([], ⟨c :: (run' ++ rest), colv, conv, mv, rv⟩) from
        consume_uscores_exit _ _ _ (is_lower_ne95 c hlow)]
    have hlac : lookahead (⟨c :: (run' ++ rest), colv, conv, mv, rv⟩ : Lexer) = c := rfl
    simp only [hlac]
    rw [if_pos hlow]
    have hadv : advance (⟨c :: (run' ++ rest), colv, conv, mv, rv⟩ : Lexer) =
        ⟨run' ++ rest, colv + 1, conv + 1, mv, rv⟩ := by
      simp [advance, hlac, hc10]
    rw [hadv]
    have hclamp : consume_id_chars ([] ++ [c]) (⟨run' ++ rest, colv + 1, conv + 1, mv, rv⟩ :
        Lexer) =
        ([c] ++ run'.take 62,
         ⟨run'.drop 62 ++ rest, colv + 1 + 62, conv + 1 + 62, mv, rv⟩) := by
      unfold consume_id_chars
      have h := consume_id_chars_clamp run' rest [c]
        ⟨run' ++ rest, colv + 1, conv + 1, mv, rv⟩
        (⟨run' ++ rest, colv + 1, conv + 1, mv, rv⟩ : Lexer).input.length
        hrun' (by simp) (by simp; omega) rfl (by simp)
      simpa using h
    rw [hclamp]
    have hkw : lookup_keyword keywords ([c] ++ run'.take 62) = .LOWER_ID :=
      lookup_keyword_long keywords _ keywords_short (by simp [hlen62])
    simp only [hkw]
    rw [if_neg (by simp)]
    simp only [mark_end, Prod.mk.injEq, Lexer.mk.injEq, Option.some.injEq, true_and, and_true]
    rfl
  · intro hupp
    have hc10 : c ≠ 10 := by
      intro he
      subst he
      exact absurd hupp (by decide)
    simp only [scan_upper_id]
    rw [show consume_uscores [] (⟨c :: (run' ++ rest), colv, conv, mv, rv⟩ : Lexer) =
          ([], ⟨c :: (run' ++ rest), colv, conv, mv, rv⟩) from
        consume_uscores_exit _ _ _ (is_upper_ne95 c hupp)]
    have hlac : lookahead (⟨c :: (run' ++ rest), colv, conv, mv, rv⟩ : Lexer) = c := rfl
    simp only [hlac]
    rw [if_pos hupp]
    have hadv : advance (⟨c :: (run' ++ rest), colv, conv, mv, rv⟩ : Lexer) =
        ⟨run' ++ rest, colv + 1, conv + 1, mv, rv⟩ := by
      simp [advance, hlac, hc10]
    rw [hadv]
    have hclamp : consume_id_chars ([] ++ [c]) (⟨run' ++ rest, colv + 1, conv + 1, mv, rv⟩ :
        Lexer) =
        ([c] ++ run'.take 62,
         ⟨run'.drop 62 ++ rest, colv + 1 + 62, conv + 1 + 62, mv, rv⟩) := by
      unfold consume_id_chars
      have h := consume_id_chars_clamp run' rest [c]
        ⟨run' ++ rest, colv + 1, conv + 1, mv, rv⟩
        (⟨run' ++ rest, colv + 1, conv + 1, mv, rv⟩ : Lexer).input.length
        hrun' (by simp) (by simp; omega) rfl (by simp)
      simpa using h
    rw [hclamp]
    rw [if_neg (fun hfn => by
      have hl := congrArg List.length hfn.1
      simp [hlen62] at hl)]
    simp only [mark_end, Prod.mk.injEq, Lexer.mk.injEq, Option.some.injEq, true_and, and_true]
    rfl

/-- Witness for C7 (amended) on a 64-byte lowercase identifier. -/
theorem C7_clamped_identifier_witness :
    scan_lower_id_or_keyword (fun _ => true) ⟨List.replicate 64 97, 0, 0, none, none⟩ =
      (.LOWER_ID, ⟨(List.replicate 64 97).drop 63 ++ [], 0 + 63, 0 + 63, some (0 + 63), none⟩) := by
  have h := (C7_clamped_identifier (fun _ => true) ⟨List.replicate 64 97, 0, 0, none, none⟩
    (List.replicate 64 97) [] (by decide) (by decide) (by decide) (by simp)).1 (by decide)
  exact h

/-- C6 counterexample: after `'` and a 64-byte lowercase identifier body,
the claim says the emitted `LABEL` covers the opening quote and the body
(65 code points); but the label scan stops consuming body bytes at 63, so
the token end mark is at 64 (quote + 63 bytes) and one body byte is left in
the input. -/
theorem C6_counterexample :
    (scanToken ⟨[defFrame], 1, 0, false, false⟩
      ⟨39 :: List.replicate 64 97, 0, 0, none, none⟩ (fun _ => true)).2.2.resultSymbol =
      some .LABEL ∧
    (scanToken ⟨[defFrame], 1, 0, false, false⟩
      ⟨39 :: List.replicate 64 97, 0, 0, none, none⟩ (fun _ => true)).2.2.marked = some 64 ∧
    (scanToken ⟨[defFrame], 1, 0, false, false⟩
      ⟨39 :: List.replicate 64 97, 0, 0, none, none⟩ (fun _ => true)).2.2.input = [97] := by
  refine ⟨by decide, by decide, by decide⟩

/-- C6 (amended): after consuming an opening `'` whose next byte is
lowercase while `LABEL` is valid, the scanner consumes the identifier body
only up to 63 bytes (the `len < 63` guard clamps both the buffer and the
consumption, so of a body longer than 63 bytes exactly its first 63 bytes
are consumed and the remaining identifier characters are left in the
input); it emits `CHAR_LITERAL` — also consuming the closing quote —
exactly when the next byte is `'`, the body has length 1, and
`CHAR_LITERAL` is valid; in every other case it emits `LABEL` covering the
opening quote and the consumed (at most 63-byte) body. -/
theorem C6_label_vs_char (s : Scanner) (lex : Lexer) (valid : TokenType → Bool)
    (body rest : List Nat)
    (hin : lex.input = 39 :: (body ++ rest))
    (hlow : is_lower (body.headD 0) = true)
    (hbody : ∀ c ∈ body, is_id_char c = true)
    (hrest : is_id_char (rest.headD 0) = false)
    (hne : body ≠ [])
    (hvl : valid .LABEL = true) :
    (rest.headD 0 = 39 ∧ body.length = 1 ∧ valid .CHAR_LITERAL = true →
      scanToken s lex valid =
        (true, s,
         { lex with input := rest.tail, col := lex.col + 3, consumed := lex.consumed + 3,
                    resultSymbol := some .CHAR_LITERAL })) ∧
    (¬(rest.headD 0 = 39 ∧ body.length = 1 ∧ valid .CHAR_LITERAL = true) →
      scanToken s lex valid =
        (true, s,
         { lex with input := body.drop 63 ++ rest,
                    col := lex.col + 1 + min body.length 63,
                    consumed := lex.consumed + 1 + min body.length 63,
                    marked := some (lex.consumed + 1 + min body.length 63),
                    resultSymbol := some .LABEL })) := by
  obtain ⟨inp, colv, conv, mv, rv⟩ := lex
  cases body with
  | nil => exact absurd rfl hne
  | cons b btail =>
  simp only [List.cons_append] at hin
  subst hin
  simp only [List.headD_cons] at hlow
  have hb := hbody b (by simp)
  have hb10 : b ≠ 10 := is_id_char_ne10 b hb
  have hbtail : ∀ d ∈ btail, is_id_char d = true := fun d hd => hbody d (by simp [hd])
  have hq : scanToken s ⟨39 :: b :: (btail ++ rest), colv, conv, mv, rv⟩ valid =
      (let lex1 := advance (⟨39 :: b :: (btail ++ rest), colv, conv, mv, rv⟩ : Lexer)
       let r := consume_id_chars [lookahead lex1] (advance lex1)
       if lookahead r.2 = 39 ∧ r.1.length = 1 ∧ valid .CHAR_LITERAL then
         (true, s, result (advance r.2) .CHAR_LITERAL)
       else
         (true, s, result (mark_end r.2) .LABEL)) := by
    have hlo : is_lower ((advance (⟨39 :: b :: (btail ++ rest), colv, conv, mv,
        rv⟩ : Lexer)).input.head?.getD 0) = true := by
      simpa [advance] using hlow
    simp [scanToken, lookahead, eof, hlo, hvl]
  rw [hq]
  have hadv1 : advance (⟨39 :: b :: (btail ++ rest), colv, conv, mv, rv⟩ : Lexer) =
      ⟨b :: (btail ++ rest), colv + 1, conv + 1, mv, rv⟩ := by
    simp [advance, lookahead]
  have hadv2 : advance (⟨b :: (btail ++ rest), colv + 1, conv + 1, mv, rv⟩ : Lexer) =
      ⟨btail ++ rest, colv + 2, conv + 2, mv, rv⟩ := by
    simp [advance, lookahead, hb10]
  simp only [hadv1]
  rw [show lookahead (⟨b :: (btail ++ rest), colv + 1, conv + 1, mv, rv⟩ : Lexer) = b
    from rfl]
  rw [hadv2]
  by_cases hlen : btail.length ≤ 62
  · have hrun : consume_id_chars [b] (⟨btail ++ rest, colv + 2, conv + 2, mv, rv⟩ : Lexer) =
        ([b] ++ btail, ⟨rest, colv + 2 + btail.length, conv + 2 + btail.length, mv, rv⟩) := by
      unfold consume_id_chars
      have h := consume_id_chars_run btail rest [b]
        ⟨btail ++ rest, colv + 2, conv + 2, mv, rv⟩
        (⟨btail ++ rest, colv + 2, conv + 2, mv, rv⟩ : Lexer).input.length
        hbtail hrest (by simp; omega) rfl (by simp)
      simpa using h
    rw [hrun]
    have hdrop : (b :: btail).drop 63 = [] := by
      apply List.drop_eq_nil_of_le
      simp only [List.length_cons]
      omega
    have hmin : min (btail.length + 1) 63 = btail.length + 1 := by omega
    constructor
    · rintro ⟨hq39, hlen1, hvc⟩
      have hbt : btail = [] := by
        simp only [List.length_cons] at hlen1
        exact List.eq_nil_of_length_eq_zero (by omega)
      subst hbt
      rw [if_pos ⟨by simpa [lookahead] using hq39, by simp, hvc⟩]
      cases rest with
      | nil => simp [lookahead] at hq39
      | cons r0 rtail =>
        simp only [List.headD_cons] at hq39
        subst hq39
        simp only [advance, lookahead, result]
        simp only [Prod.mk.injEq, Lexer.mk.injEq, true_and, and_true]
        norm_num
    · intro hnot
      rw [if_neg (fun hcond => hnot ⟨by simpa [lookahead] using hcond.1,
        by simpa using hcond.2.1, hcond.2.2⟩)]
      simp only [mark_end, result, Prod.mk.injEq, Lexer.mk.injEq, Option.some.injEq,
        true_and, and_true, List.length_cons, hdrop, hmin, List.nil_append]
      refine ⟨by omega, by omega, by omega⟩
  · have hrun : consume_id_chars [b] (⟨btail ++ rest, colv + 2, conv + 2, mv, rv⟩ : Lexer) =
        ([b] ++ btail.take 62,
         ⟨btail.drop 62 ++ rest, colv + 2 + 62, conv + 2 + 62, mv, rv⟩) := by
      unfold consume_id_chars
      have h := consume_id_chars_clamp btail rest [b]
        ⟨btail ++ rest, colv + 2, conv + 2, mv, rv⟩
        (⟨btail ++ rest, colv + 2, conv + 2, mv, rv⟩ : Lexer).input.length
        hbtail (by simp) (by simp; omega) rfl (by simp)
      simpa using h
    rw [hrun]
    have hlen63 : (([b] ++ btail.take 62) : List Nat).length = 63 := by
      simp only [List.length_append, List.length_cons, List.length_nil, List.length_take]
      omega
    have hdrop : (b :: btail).drop 63 = btail.drop 62 := by
      rw [show (63 : Nat) = 62 + 1 from rfl, List.drop_succ_cons]
    have hmin : min (btail.length + 1) 63 = 63 := by omega
    constructor
    · rintro ⟨hq39, hlen1, hvc⟩
      simp only [List.length_cons] at hlen1
      omega
    · intro hnot
      rw [if_neg (by
        intro hcond
        obtain ⟨h39, h1len, hvv⟩ := hcond
        rw [hlen63] at h1len
        omega)]
      simp only [mark_end, result, Prod.mk.injEq, Lexer.mk.injEq, Option.some.injEq,
        true_and, and_true, List.length_cons, hdrop, hmin]

/-- Witness for C6 (amended): a one-byte body with closing quote yields
`CHAR_LITERAL`; a four-byte body yields `LABEL`; a 64-byte body yields
`LABEL` over its first 63 bytes with the 64th byte left in the input. -/
theorem C6_label_vs_char_witness :
    scanToken ⟨[defFrame], 1, 0, false, false⟩ ⟨[39, 97, 39], 0, 0, none, none⟩
        (fun _ => true) =
      (true, ⟨[defFrame], 1, 0, false, false⟩, ⟨[], 3, 3, none, some .CHAR_LITERAL⟩) ∧
    scanToken ⟨[defFrame], 1, 0, false, false⟩ ⟨[39, 108, 111, 111, 112, 32], 0, 0, none, none⟩
        (fun _ => true) =
      (true, ⟨[defFrame], 1, 0, false, false⟩, ⟨[32], 5, 5, some 5, some .LABEL⟩) ∧
    scanToken ⟨[defFrame], 1, 0, false, false⟩
        ⟨39 :: (List.replicate 64 97 ++ [32]), 0, 0, none, none⟩ (fun _ => true) =
      (true, ⟨[defFrame], 1, 0, false, false⟩, ⟨[97, 32], 64, 64, some 64, some .LABEL⟩) := by
  refine ⟨?_, ?_, ?_⟩
  · have h := (C6_label_vs_char ⟨[defFrame], 1, 0, false, false⟩ ⟨[39, 97, 39], 0, 0, none, none⟩
      (fun _ => true) [97] [39] rfl (by decide) (by decide) (by decide)
      (by decide) (by decide)).1 (by decide)
    rw [h]; rfl
  · have h := (C6_label_vs_char ⟨[defFrame], 1, 0, false, false⟩
      ⟨[39, 108, 111, 111, 112, 32], 0, 0, none, none⟩
      (fun _ => true) [108, 111, 111, 112] [32] rfl (by decide) (by decide) (by decide)
      (by decide) (by decide)).2 (by decide)
    rw [h]; rfl
  · have h := (C6_label_vs_char ⟨[defFrame], 1, 0, false, false⟩
      ⟨39 :: (List.replicate 64 97 ++ [32]), 0, 0, none, none⟩
      (fun _ => true) (List.replicate 64 97) [32] rfl (by decide) (by decide) (by decide)
      (by decide) (by decide)).2 (by decide)
    rw [h]; rfl

theorem hex_or_us_ne10 (c : Nat) (h : (is_hex c || c == 95) = true) : c ≠ 10 := by
  intro he
  subst he
  exact absurd h (by decide)

theorem bin_or_us_ne10 (c : Nat) (h : (is_bin c || c == 95) = true) : c ≠ 10 := by
  intro he
  subst he
  exact absurd h (by decide)

/-- Behavior of `scan_int_literal` after a `0x`/`0X` prefix: failure with no
base digit or underscore, success consuming the maximal run otherwise. -/
theorem scan_int_literal_hex (colv conv : Nat) (mv : Option Nat) (rv : Option TokenType)
    (xb : Nat) (tail : List Nat) (hx : xb = 120 ∨ xb = 88) :
    ((is_hex (tail.headD 0) || tail.headD 0 == 95) = false →
      scan_int_literal ⟨48 :: xb :: tail, colv, conv, mv, rv⟩ =
        (false, ⟨tail, colv + 2, conv + 2, mv, rv⟩)) ∧
    (∀ run rest, tail = run ++ rest → run ≠ [] →
      (∀ c ∈ run, (is_hex c || c == 95) = true) →
      (is_hex (rest.headD 0) || rest.headD 0 == 95) = false →
      scan_int_literal ⟨48 :: xb :: tail, colv, conv, mv, rv⟩ =
        (true, ⟨rest, colv + 2 + run.length, conv + 2 + run.length, mv, rv⟩)) := by
  have hxb10 : xb ≠ 10 := by rcases hx with h | h <;> omega
  have hadv0 : advance (⟨48 :: xb :: tail, colv, conv, mv, rv⟩ : Lexer) =
      ⟨xb :: tail, colv + 1, conv + 1, mv, rv⟩ := by
    simp [advance, lookahead]
  have hadv1 : advance (⟨xb :: tail, colv + 1, conv + 1, mv, rv⟩ : Lexer) =
      ⟨tail, colv + 2, conv + 2, mv, rv⟩ := by
    simp [advance, lookahead, hxb10]
  constructor
  · intro hfail
    rw [Bool.or_eq_false_iff] at hfail
    simp only [scan_int_literal]
    rw [show lookahead (⟨48 :: xb :: tail, colv, conv, mv, rv⟩ : Lexer) = 48 from rfl,
        if_neg (by decide), if_pos rfl, hadv0,
        show lookahead (⟨xb :: tail, colv + 1, conv + 1, mv, rv⟩ : Lexer) = xb from rfl,
        if_pos hx, hadv1,
        show lookahead (⟨tail, colv + 2, conv + 2, mv, rv⟩ : Lexer) = tail.headD 0 from rfl,
        if_pos ⟨by rw [Bool.not_eq_true]; exact hfail.1,
          by intro he; rw [he] at hfail; exact absurd hfail.2 (by decide)⟩]
  · intro run rest htail hne hrun hrest
    subst htail
    cases run with
    | nil => exact absurd rfl hne
    | cons r0 run' =>
    have hr0 := hrun r0 (by simp)
    simp only [scan_int_literal]
    rw [show lookahead (⟨48 :: xb :: ((r0 :: run') ++ rest), colv, conv, mv, rv⟩ : Lexer) = 48
          from rfl,
        if_neg (by decide), if_pos rfl]
    rw [show advance (⟨48 :: xb :: ((r0 :: run') ++ rest), colv, conv, mv, rv⟩ : Lexer) =
          ⟨xb :: ((r0 :: run') ++ rest), colv + 1, conv + 1, mv, rv⟩ from by
        simp [advance, lookahead],
        show lookahead (⟨xb :: ((r0 :: run') ++ rest), colv + 1, conv + 1, mv, rv⟩ : Lexer) = xb
          from rfl,
        if_pos hx,
        show advance (⟨xb :: ((r0 :: run') ++ rest), colv + 1, conv + 1, mv, rv⟩ : Lexer) =
          ⟨(r0 :: run') ++ rest, colv + 2, conv + 2, mv, rv⟩ from by
        simp [advance, lookahead, hxb10]]
    rw [show lookahead (⟨(r0 :: run') ++ rest, colv + 2, conv + 2, mv, rv⟩ : Lexer) = r0
          from rfl,
        if_neg (fun hcond => by
          rcases Bool.or_eq_true_iff.mp hr0 with h | h
          · exact absurd h (by simpa using hcond.1)
          · exact hcond.2 (by simpa using h))]
    unfold consume_while
    rw [consume_while_run _ (r0 :: run') rest _ _
      (fun c hc => ⟨hrun c hc, hex_or_us_ne10 c (hrun c hc)⟩) hrest rfl (by simp)]

/-- Behavior of `scan_int_literal` after a `0b`/`0B` prefix. -/
theorem scan_int_literal_bin (colv conv : Nat) (mv : Option Nat) (rv : Option TokenType)
    (xb : Nat) (tail : List Nat) (hx : xb = 98 ∨ xb = 66) :
    ((is_bin (tail.headD 0) || tail.headD 0 == 95) = false →
      scan_int_literal ⟨48 :: xb :: tail, colv, conv, mv, rv⟩ =
        (false, ⟨tail, colv + 2, conv + 2, mv, rv⟩)) ∧
    (∀ run rest, tail = run ++ rest → run ≠ [] →
      (∀ c ∈ run, (is_bin c || c == 95) = true) →
      (is_bin (rest.headD 0) || rest.headD 0 == 95) = false →
      scan_int_literal ⟨48 :: xb :: tail, colv, conv, mv, rv⟩ =
        (true, ⟨rest, colv + 2 + run.length, conv + 2 + run.length, mv, rv⟩)) := by
  have hxb10 : xb ≠ 10 := by rcases hx with h | h <;> omega
  have hnx : ¬(xb = 120 ∨ xb = 88) := by rcases hx with h | h <;> omega
  have hadv0 : advance (⟨48 :: xb :: tail, colv, conv, mv, rv⟩ : Lexer) =
      ⟨xb :: tail, colv + 1, conv + 1, mv, rv⟩ := by
    simp [advance, lookahead]
  have hadv1 : advance (⟨xb :: tail, colv + 1, conv + 1, mv, rv⟩ : Lexer) =
      ⟨tail, colv + 2, conv + 2, mv, rv⟩ := by
    simp [advance, lookahead, hxb10]
  constructor
  · intro hfail
    rw [Bool.or_eq_false_iff] at hfail
    simp only [scan_int_literal]
    rw [show lookahead (⟨48 :: xb :: tail, colv, conv, mv, rv⟩ : Lexer) = 48 from rfl,
        if_neg (by decide), if_pos rfl, hadv0,
        show lookahead (⟨xb :: tail, colv + 1, conv + 1, mv, rv⟩ : Lexer) = xb from rfl,
        if_neg hnx, if_pos hx, hadv1,
        show lookahead (⟨tail, colv + 2, conv + 2, mv, rv⟩ : Lexer) = tail.headD 0 from rfl,
        if_pos ⟨by rw [Bool.not_eq_true]; exact hfail.1,
          by intro he; rw [he] at hfail; exact absurd hfail.2 (by decide)⟩]
  · intro run rest htail hne hrun hrest
    subst htail
    cases run with
    | nil => exact absurd rfl hne
    | cons r0 run' =>
    have hr0 := hrun r0 (by simp)
    simp only [scan_int_literal]
    rw [show lookahead (⟨48 :: xb :: ((r0 :: run') ++ rest), colv, conv, mv, rv⟩ : Lexer) = 48
          from rfl,
        if_neg (by decide), if_pos rfl]
    rw [show advance (⟨48 :: xb :: ((r0 :: run') ++ rest), colv, conv, mv, rv⟩ : Lexer) =
          ⟨xb :: ((r0 :: run') ++ rest), colv + 1, conv + 1, mv, rv⟩ from by
        simp [advance, lookahead],
        show lookahead (⟨xb :: ((r0 :: run') ++ rest), colv + 1, conv + 1, mv, rv⟩ : Lexer) = xb
          from rfl,
        if_neg hnx, if_pos hx,
        show advance (⟨xb :: ((r0 :: run') ++ rest), colv + 1, conv + 1, mv, rv⟩ : Lexer) =
          ⟨(r0 :: run') ++ rest, colv + 2, conv + 2, mv, rv⟩ from by
        simp [advance, lookahead, hxb10]]
    rw [show lookahead (⟨(r0 :: run') ++ rest, colv + 2, conv + 2, mv, rv⟩ : Lexer) = r0
          from rfl,
        if_neg (fun hcond => by
          rcases Bool.or_eq_true_iff.mp hr0 with h | h
          · exact absurd h (by simpa using hcond.1)
          · exact hcond.2 (by simpa using h))]
    unfold consume_while
    rw [consume_while_run _ (r0 :: run') rest _ _
      (fun c hc => ⟨hrun c hc, bin_or_us_ne10 c (hrun c hc)⟩) hrest rfl (by simp)]

/-- C8: when a scan call reaches the integer-literal scanner on a digit with
`INT_LITERAL` valid and the input begins with a `0x`/`0b` prefix (the code
also accepts `0X`/`0B`): if the byte after the prefix is neither a base
digit nor `_`, the call returns false and emits no token (the result symbol
is unchanged); if at least one base digit or underscore follows, the call
emits `INT_LITERAL`, consuming the prefix plus the maximal run of base
digits and underscores. -/
theorem C8_int_literal_radix (s : Scanner) (lex : Lexer) (valid : TokenType → Bool)
    (xb : Nat) (tail : List Nat)
    (hin : lex.input = 48 :: xb :: tail)
    (hxb : xb = 120 ∨ xb = 88 ∨ xb = 98 ∨ xb = 66)
    (hv : valid .INT_LITERAL = true) :
    ((if xb = 120 ∨ xb = 88 then is_hex (tail.headD 0) || tail.headD 0 == 95
        else is_bin (tail.headD 0) || tail.headD 0 == 95) = false →
      scanToken s lex valid =
        (false, s,
         { lex with input := tail, col := lex.col + 2, consumed := lex.consumed + 2 })) ∧
    (∀ run rest, tail = run ++ rest → run ≠ [] →
      (∀ c ∈ run, (if xb = 120 ∨ xb = 88 then is_hex c || c == 95
        else is_bin c || c == 95) = true) →
      (if xb = 120 ∨ xb = 88 then is_hex (rest.headD 0) || rest.headD 0 == 95
        else is_bin (rest.headD 0) || rest.headD 0 == 95) = false →
      scanToken s lex valid =
        (true, s,
         { lex with input := rest, col := lex.col + 2 + run.length,
                    consumed := lex.consumed + 2 + run.length,
                    marked := some (lex.consumed + 2 + run.length),
                    resultSymbol := some .INT_LITERAL })) := by
  obtain ⟨inp, colv, conv, mv, rv⟩ := lex
  simp only at hin
  subst hin
  have hq : scanToken s ⟨48 :: xb :: tail, colv, conv, mv, rv⟩ valid =
      (if (scan_int_literal ⟨48 :: xb :: tail, colv, conv, mv, rv⟩).1 then
        (true, s,
         result (mark_end (scan_int_literal ⟨48 :: xb :: tail, colv, conv, mv, rv⟩).2)
           .INT_LITERAL)
       else (false, s, (scan_int_literal ⟨48 :: xb :: tail, colv, conv, mv, rv⟩).2)) := by
    simp [scanToken, lookahead, eof, hv, is_upper, is_lower, is_digit]
  rcases (show (xb = 120 ∨ xb = 88) ∨ (xb = 98 ∨ xb = 66) by tauto) with hcase | hcase
  · obtain ⟨hfailL, hsuccL⟩ := scan_int_literal_hex colv conv mv rv xb tail hcase
    constructor
    · intro hfail
      rw [if_pos hcase] at hfail
      rw [hq, hfailL hfail]
      simp
    · intro run rest htail hne hrun hrest
      rw [if_pos hcase] at hrest
      have hrun' : ∀ c ∈ run, (is_hex c || c == 95) = true := by
        intro c hc
        have hx := hrun c hc
        rwa [if_pos hcase] at hx
      rw [hq, hsuccL run rest htail hne hrun' hrest]
      simp [mark_end, result]
  · have hnx : ¬(xb = 120 ∨ xb = 88) := by
      rcases hcase with h | h <;> subst h <;> decide
    obtain ⟨hfailL, hsuccL⟩ := scan_int_literal_bin colv conv mv rv xb tail hcase
    constructor
    · intro hfail
      rw [if_neg hnx] at hfail
      rw [hq, hfailL hfail]
      simp
    · intro run rest htail hne hrun hrest
      rw [if_neg hnx] at hrest
      have hrun' : ∀ c ∈ run, (is_bin c || c == 95) = true := by
        intro c hc
        have hx := hrun c hc
        rwa [if_neg hnx] at hx
      rw [hq, hsuccL run rest htail hne hrun' hrest]
      simp [mark_end, result]

/-- Witness for C8: `0x.` fails with no token; `0x_f,` consumes `0x_f`. -/
theorem C8_int_literal_radix_witness :
    scanToken ⟨[defFrame], 1, 0, false, false⟩ ⟨[48, 120, 46], 0, 0, none, none⟩
        (fun _ => true) =
      (false, ⟨[defFrame], 1, 0, false, false⟩, ⟨[46], 2, 2, none, none⟩) ∧
    scanToken ⟨[defFrame], 1, 0, false, false⟩ ⟨[48, 120, 95, 102, 44], 0, 0, none, none⟩
        (fun _ => true) =
      (true, ⟨[defFrame], 1, 0, false, false⟩, ⟨[44], 4, 4, some 4, some .INT_LITERAL⟩) := by
  constructor
  · have h := (C8_int_literal_radix ⟨[defFrame], 1, 0, false, false⟩
      ⟨[48, 120, 46], 0, 0, none, none⟩ (fun _ => true) 120 [46] rfl (by decide)
      (by decide)).1 (by decide)
    rw [h]
  · have h := (C8_int_literal_radix ⟨[defFrame], 1, 0, false, false⟩
      ⟨[48, 120, 95, 102, 44], 0, 0, none, none⟩ (fun _ => true) 120 [95, 102, 44] rfl
      (by decide) (by decide)).2 [95, 102] [44] rfl (by decide) (by decide) (by decide)
    rw [h]
    rfl

/-! Lemmas on the scanner-state effect of each phase of `scan`. -/

theorem setF_oob : ∀ (l : List Frame) (i : Nat) (f : Frame), l.length ≤ i → setF l i f = l := by
  intro l
  induction l with
  | nil => intro i f _; rfl
  | cons a t ih =>
    intro i f h
    cases i with
    | zero => simp at h
    | succ j => simp [setF, ih j f (by simpa using h)]

theorem getF_oob : ∀ (l : List Frame) (i : Nat), l.length ≤ i → getF l i = defFrame := by
  intro l
  induction l with
  | nil => intro i _; cases i <;> rfl
  | cons a t ih =>
    intro i h
    cases i with
    | zero => simp at h
    | succ j => exact ih j (by simpa using h)

/-- Popping a frame cannot expose an `INTERPOLATION` frame when neither of
the two topmost frames is one. -/
theorem top_frame_pop_ne (s : Scanner)
    (h1 : (top_frame s).kind ≠ .INTERPOLATION)
    (h2 : 2 ≤ s.depth → (getF s.stack (s.depth - 2)).kind ≠ .INTERPOLATION) :
    (top_frame (pop_frame s)).kind ≠ .INTERPOLATION := by
  unfold pop_frame
  split
  · simp only [top_frame]
    have e : s.depth - 1 - 1 = s.depth - 2 := by omega
    rw [e]
    exact h2 (by omega)
  · exact h1

/-- Pushing a non-`INTERPOLATION` frame keeps the top frame
non-`INTERPOLATION` (also when the push is dropped at full depth or the
write lands outside the modelled array). -/
theorem top_push_ne (s : Scanner) (k : FrameKind) (c : Nat)
    (hk : k ≠ .INTERPOLATION) (h1 : (top_frame s).kind ≠ .INTERPOLATION) :
    (top_frame (push_frame s k c)).kind ≠ .INTERPOLATION := by
  unfold push_frame
  split
  · simp only [top_frame]
    have e : s.depth + 1 - 1 = s.depth := by omega
    rw [e]
    by_cases hlen : s.depth < s.stack.length
    · rw [getF_setF_self _ _ _ hlen]
      exact hk
    · rw [setF_oob _ _ _ (by omega), getF_oob _ _ (by omega)]
      simp [defFrame]
  · exact h1

/-- Case-analysis helper for if-then-else goals, avoiding any simp
machinery on large terms. -/
theorem ite_cases {α : Sort 1} (P : α → Prop) (c : Prop) [Decidable c] (a b : α)
    (ha : c → P a) (hb : ¬c → P b) : P (if c then a else b) := by
  by_cases h : c
  · rw [if_pos h]
    exact ha h
  · rw [if_neg h]
    exact hb h

set_option maxHeartbeats 1000000 in
/-- Every branch of `scanOperator` leaves the scanner state untouched. -/
theorem scanOperator_state (s : Scanner) (lex : Lexer) (valid : TokenType → Bool) :
    (scanOperator s lex valid).2.1 = s := by
  delta scanOperator
  repeat' refine ite_cases (fun x : Bool × Scanner × Lexer => x.2.1 = s) _ _ _ (fun hc => ?_) (fun hc => ?_)
  all_goals rfl

set_option maxHeartbeats 1000000 in
/-- Any false-returning path of `scanToken` leaves the scanner unchanged. -/
theorem scanToken_state_of_false (s : Scanner) (lex : Lexer) (valid : TokenType → Bool) :
    (scanToken s lex valid).1 = false → (scanToken s lex valid).2.1 = s := by
  delta scanToken
  repeat' refine ite_cases (fun x : Bool × Scanner × Lexer => x.1 = false → x.2.1 = s) _ _ _ (fun hc => ?_) (fun hc => ?_)
  all_goals first
    | (intro h; exact Bool.noConfusion h)
    | (intro h; rfl)

/-- The facts needed about any `.ret` outcome of a whitespace/layout phase:
a false return leaves the scanner unchanged, `in_string` is never touched,
and a top frame that is not `INTERPOLATION` (with the frame below it also
not `INTERPOLATION`) stays non-`INTERPOLATION`. -/
def RetFacts (s s1 : Scanner) (b : Bool) : Prop :=
  (b = false → s1 = s) ∧ s1.in_string = s.in_string ∧
  ((top_frame s).kind ≠ .INTERPOLATION →
    (2 ≤ s.depth → (getF s.stack (s.depth - 2)).kind ≠ .INTERPOLATION) →
    (top_frame s1).kind ≠ .INTERPOLATION)

/-- A false-returning string-mode scan leaves the scanner unchanged. -/
theorem scanString_state_of_false (s : Scanner) (lex : Lexer) (valid : TokenType → Bool) :
    (scanString s lex valid).1 = false → (scanString s lex valid).2.1 = s := by
  rcases hE : scanString s lex valid with ⟨b, s1, l1⟩
  intro hb
  subst hb
  show s1 = s
  simp only [scanString] at hE
  repeat' split at hE
  all_goals (
    injection hE with h1 hrest2
    injection hrest2 with hs hl)
  all_goals first
    | exact Bool.noConfusion h1
    | exact hs.symm

/-- String mode preserves the non-`INTERPOLATION`-top property. -/
theorem scanString_inv (s : Scanner) (lex : Lexer) (valid : TokenType → Bool)
    (h1 : (top_frame s).kind ≠ .INTERPOLATION) :
    (scanString s lex valid).2.1.in_string = true →
      (top_frame (scanString s lex valid).2.1).kind ≠ .INTERPOLATION := by
  rcases hE : scanString s lex valid with ⟨b, s1, l1⟩
  intro hstr
  show (top_frame s1).kind ≠ .INTERPOLATION
  simp only [scanString] at hE
  repeat' split at hE
  all_goals (
    injection hE with h1' hrest2
    injection hrest2 with hs hl
    subst hs)
  all_goals first
    | exact h1
    | exact Bool.noConfusion hstr
    | (rw [push_frame_in_string] at hstr; exact Bool.noConfusion hstr)

/-- Facts about a `.ret` outcome of the non-indented layout phase. -/
theorem scanNonIndented_ret (s : Scanner) (lex : Lexer) (valid : TokenType → Bool)
    (b : Bool) (s1 : Scanner) (l1 : Lexer)
    (hE : scanNonIndented s lex valid = .ret b s1 l1) : RetFacts s s1 b := by
  simp only [scanNonIndented] at hE
  repeat' split at hE
  all_goals first
    | exact ScanOut.noConfusion hE
    | (injection hE with hb hs hl
       subst hs
       exact ⟨fun hf => Bool.noConfusion (hb.trans hf), rfl, fun h1 _ => h1⟩)
    | (injection hE with hb hs hl
       subst hs
       exact ⟨fun hf => Bool.noConfusion (hb.trans hf), push_frame_in_string _ _ _,
         fun h1 _ => top_push_ne _ _ _ (by decide) h1⟩)

/-- A fall-through of the non-indented layout phase leaves the scanner
unchanged. -/
theorem scanNonIndented_fall (s : Scanner) (lex : Lexer) (valid : TokenType → Bool)
    (s1 : Scanner) (l1 : Lexer)
    (hE : scanNonIndented s lex valid = .fall s1 l1) : s1 = s := by
  simp only [scanNonIndented] at hE
  repeat' split at hE
  all_goals first
    | exact ScanOut.noConfusion hE
    | (injection hE with hs hl; exact hs.symm)
/-- Facts about a `.ret` outcome of the `START_BLOCK` check. -/
theorem startBlockCheck_ret (s : Scanner) (a : Bool) (lex : Lexer)
    (valid : TokenType → Bool) (b : Bool) (s1 : Scanner) (l1 : Lexer)
    (hE : startBlockCheck s a lex valid = .ret b s1 l1) : RetFacts s s1 b := by
  simp only [startBlockCheck] at hE
  repeat' split at hE
  all_goals first
    | exact ScanOut.noConfusion hE
    | (injection hE with hb hs hl
       subst hs
       exact ⟨fun hf => Bool.noConfusion (hb.trans hf), push_frame_in_string _ _ _,
         fun h1 _ => top_push_ne _ _ _ (by decide) h1⟩)

/-- A fall-through of the `START_BLOCK` check leaves the scanner unchanged. -/
theorem startBlockCheck_fall (s : Scanner) (a : Bool) (lex : Lexer)
    (valid : TokenType → Bool) (s1 : Scanner) (l1 : Lexer)
    (hE : startBlockCheck s a lex valid = .fall s1 l1) : s1 = s := by
  simp only [startBlockCheck] at hE
  repeat' split at hE
  all_goals first
    | exact ScanOut.noConfusion hE
    | (injection hE with hs hl; exact hs.symm)

/-- Facts about a `.ret` outcome of the delimiter auto-close check. -/
theorem delimiterCheck_ret (s : Scanner) (lex : Lexer)
    (valid : TokenType → Bool) (b : Bool) (s1 : Scanner) (l1 : Lexer)
    (hE : delimiterCheck s lex valid = .ret b s1 l1) : RetFacts s s1 b := by
  simp only [delimiterCheck] at hE
  repeat' split at hE
  all_goals first
    | exact ScanOut.noConfusion hE
    | (injection hE with hb hs hl
       subst hs
       exact ⟨fun hf => Bool.noConfusion (hb.trans hf), rfl, fun h1 _ => h1⟩)
    | (injection hE with hb hs hl
       subst hs
       exact ⟨fun hf => Bool.noConfusion (hb.trans hf), pop_frame_in_string _,
         fun h1 h2 => top_frame_pop_ne _ h1 h2⟩)

/-- A fall-through of the delimiter auto-close check leaves the scanner
unchanged. -/
theorem delimiterCheck_fall (s : Scanner) (lex : Lexer)
    (valid : TokenType → Bool) (s1 : Scanner) (l1 : Lexer)
    (hE : delimiterCheck s lex valid = .fall s1 l1) : s1 = s := by
  simp only [delimiterCheck] at hE
  repeat' split at hE
  all_goals first
    | exact ScanOut.noConfusion hE
    | (injection hE with hs hl; exact hs.symm)

/-- Facts about a `.ret` outcome of the indentation check. -/
theorem indentationCheck_ret (s : Scanner) (lex : Lexer)
    (valid : TokenType → Bool) (b : Bool) (s1 : Scanner) (l1 : Lexer)
    (hE : indentationCheck s lex valid = .ret b s1 l1) : RetFacts s s1 b := by
  simp only [indentationCheck] at hE
  repeat' split at hE
  all_goals first
    | exact ScanOut.noConfusion hE
    | (injection hE with hb hs hl
       subst hs
       exact ⟨fun hf => Bool.noConfusion (hb.trans hf), rfl, fun h1 _ => h1⟩)
    | (injection hE with hb hs hl
       subst hs
       exact ⟨fun hf => Bool.noConfusion (hb.trans hf), pop_frame_in_string _,
         fun h1 h2 => top_frame_pop_ne _ h1 h2⟩)

/-- A fall-through of the indentation check leaves the scanner unchanged. -/
theorem indentationCheck_fall (s : Scanner) (lex : Lexer)
    (valid : TokenType → Bool) (s1 : Scanner) (l1 : Lexer)
    (hE : indentationCheck s lex valid = .fall s1 l1) : s1 = s := by
  simp only [indentationCheck] at hE
  repeat' split at hE
  all_goals first
    | exact ScanOut.noConfusion hE
    | (injection hE with hs hl; exact hs.symm)
/-- Facts about a `.ret` outcome of the indented layout core. -/
theorem scanIndentedCore_ret (s : Scanner) (a : Bool) (lex2 : Lexer)
    (valid : TokenType → Bool) (b : Bool) (s1 : Scanner) (l1 : Lexer)
    (hE : scanIndentedCore s a lex2 valid = .ret b s1 l1) : RetFacts s s1 b := by
  simp only [scanIndentedCore] at hE
  split at hE
  · repeat' split at hE
    all_goals first
      | exact ScanOut.noConfusion hE
      | (injection hE with hb hs hl
         subst hs
         exact ⟨fun hf => Bool.noConfusion (hb.trans hf), rfl, fun h1 _ => h1⟩)
      | (injection hE with hb hs hl
         subst hs
         exact ⟨fun _ => rfl, rfl, fun h1 _ => h1⟩)
      | (injection hE with hb hs hl
         subst hs
         exact ⟨fun hf => Bool.noConfusion (hb.trans hf), pop_frame_in_string _,
           fun h1 h2 => top_frame_pop_ne _ h1 h2⟩)
  · rcases hsb : startBlockCheck s a lex2 valid with ⟨b2, s2, l2⟩ | ⟨s2, l2⟩ <;>
      simp only [hsb] at hE
    · injection hE with hb2 hs2 hl2
      subst hb2
      subst hs2
      exact startBlockCheck_ret _ _ _ _ _ _ _ hsb
    · have hs2 : s2 = s := startBlockCheck_fall _ _ _ _ _ _ hsb
      rw [hs2] at hE
      rcases hdc : delimiterCheck s l2 valid with ⟨b3, s3, l3⟩ | ⟨s3, l3⟩ <;>
        simp only [hdc] at hE
      · injection hE with hb3 hs3 hl3
        subst hb3
        subst hs3
        exact delimiterCheck_ret _ _ _ _ _ _ hdc
      · have hs3 : s3 = s := delimiterCheck_fall _ _ _ _ _ hdc
        rw [hs3] at hE
        split at hE
        · exact indentationCheck_ret _ _ _ _ _ _ hE
        · exact ScanOut.noConfusion hE

/-- A fall-through of the indented layout core leaves the scanner
unchanged. -/
theorem scanIndentedCore_fall (s : Scanner) (a : Bool) (lex2 : Lexer)
    (valid : TokenType → Bool) (s1 : Scanner) (l1 : Lexer)
    (hE : scanIndentedCore s a lex2 valid = .fall s1 l1) : s1 = s := by
  simp only [scanIndentedCore] at hE
  split at hE
  · repeat' split at hE
    all_goals exact ScanOut.noConfusion hE
  · rcases hsb : startBlockCheck s a lex2 valid with ⟨b2, s2, l2⟩ | ⟨s2, l2⟩ <;>
      simp only [hsb] at hE
    · exact ScanOut.noConfusion hE
    · have hs2 : s2 = s := startBlockCheck_fall _ _ _ _ _ _ hsb
      rw [hs2] at hE
      rcases hdc : delimiterCheck s l2 valid with ⟨b3, s3, l3⟩ | ⟨s3, l3⟩ <;>
        simp only [hdc] at hE
      · exact ScanOut.noConfusion hE
      · have hs3 : s3 = s := delimiterCheck_fall _ _ _ _ _ hdc
        rw [hs3] at hE
        split at hE
        · exact indentationCheck_fall _ _ _ _ _ hE
        · injection hE with hs hl
          exact hs.symm

/-- Facts about a `.ret` outcome of the indented layout phase. -/
theorem scanIndented_ret (s : Scanner) (lex : Lexer)
    (valid : TokenType → Bool) (b : Bool) (s1 : Scanner) (l1 : Lexer)
    (hE : scanIndented s lex valid = .ret b s1 l1) : RetFacts s s1 b := by
  simp only [scanIndented] at hE
  exact scanIndentedCore_ret _ _ _ _ _ _ _ hE

/-- A fall-through of the indented layout phase leaves the scanner
unchanged. -/
theorem scanIndented_fall (s : Scanner) (lex : Lexer)
    (valid : TokenType → Bool) (s1 : Scanner) (l1 : Lexer)
    (hE : scanIndented s lex valid = .fall s1 l1) : s1 = s := by
  simp only [scanIndented] at hE
  exact scanIndentedCore_fall _ _ _ _ _ _ hE
set_option maxHeartbeats 1000000 in
/-- Every branch of `scanToken` preserves the property that the top frame is
not an `INTERPOLATION` frame, given that neither of the two topmost frames
is one at entry. -/
theorem scanToken_inv (s : Scanner) (lex : Lexer) (valid : TokenType → Bool)
    (h1 : (top_frame s).kind ≠ .INTERPOLATION)
    (h2 : 2 ≤ s.depth → (getF s.stack (s.depth - 2)).kind ≠ .INTERPOLATION) :
    (scanToken s lex valid).2.1.in_string = true →
      (top_frame (scanToken s lex valid).2.1).kind ≠ .INTERPOLATION := by
  delta scanToken
  repeat' refine ite_cases (fun x : Bool × Scanner × Lexer => x.2.1.in_string = true → (top_frame x.2.1).kind ≠ .INTERPOLATION) _ _ _ (fun hc => ?_) (fun hc => ?_)
  all_goals intro hstr
  all_goals first
    | exact h1
    | exact top_frame_pop_ne s h1 h2
    | exact top_push_ne s _ _ (by decide) h1
    | (split <;> first | exact top_frame_pop_ne s h1 h2 | exact h1)
/-- C9: whenever a scan call returns false, the scanner state is unchanged —
depth, the stack frames, `pending_end_blocks`, `in_string` and
`eof_newline_emitted` all keep their entry values, for every input and every
valid-token set. -/
theorem C9_failure_atomic (s : Scanner) (lex : Lexer) (valid : TokenType → Bool)
    (hf : (scan s lex valid).1 = false) : (scan s lex valid).2.1 = s := by
  rcases hE : scan s lex valid with ⟨b, s1, l1⟩
  rw [hE] at hf
  have hb : b = false := hf
  subst hb
  show s1 = s
  simp only [scan] at hE
  split at hE
  · injection hE with h1 hrest2
    exact Bool.noConfusion h1
  · split at hE
    · have h := scanString_state_of_false s lex valid
      rw [hE] at h
      exact h rfl
    · rcases hI : (if in_non_indented s then scanNonIndented s lex valid
          else scanIndented s lex valid) with ⟨b2, s2, l2⟩ | ⟨s2, l2⟩ <;>
        simp only [hI] at hE
      · injection hE with hb2 hrest2
        injection hrest2 with hs2 hl2
        subst hb2
        subst hs2
        split at hI
        · exact (scanNonIndented_ret _ _ _ _ _ _ hI).1 rfl
        · exact (scanIndented_ret _ _ _ _ _ _ hI).1 rfl
      · have hs2 : s2 = s := by
          split at hI
          · exact scanNonIndented_fall _ _ _ _ _ hI
          · exact scanIndented_fall _ _ _ _ _ hI
        rw [hs2] at hE
        have h := scanToken_state_of_false s l2 valid
        rw [hE] at h
        exact h rfl

/-- Witness for C9: with no valid tokens and empty input the call fails and
the state is unchanged. -/
theorem C9_failure_atomic_witness :
    (scan (initialScanner [defFrame]) ⟨[], 0, 0, none, none⟩ (fun _ => false)).1 = false ∧
    (scan (initialScanner [defFrame]) ⟨[], 0, 0, none, none⟩ (fun _ => false)).2.1 =
      initialScanner [defFrame] :=
  ⟨by decide, C9_failure_atomic _ _ _ (by decide)⟩
/-- C5 counterexample: a state with a live `INTERPOLATION` frame on top and
`in_string` false satisfies the spec's invariant at entry (vacuously), yet
scanning a `"` with only `BEGIN_STR` valid succeeds and ends with
`in_string` true while the top frame is still the `INTERPOLATION` frame:
the invariant as stated is not preserved by a scan call. -/
theorem C5_counterexample :
    ((⟨[defFrame, ⟨.INTERPOLATION, 0⟩], 2, 0, false, false⟩ : Scanner).in_string = true →
      (top_frame ⟨[defFrame, ⟨.INTERPOLATION, 0⟩], 2, 0, false, false⟩).kind ≠ .INTERPOLATION) ∧
    (scan ⟨[defFrame, ⟨.INTERPOLATION, 0⟩], 2, 0, false, false⟩ ⟨[34], 0, 0, none, none⟩
        (fun t => decide (t = .BEGIN_STR))).1 = true ∧
    (scan ⟨[defFrame, ⟨.INTERPOLATION, 0⟩], 2, 0, false, false⟩ ⟨[34], 0, 0, none, none⟩
        (fun t => decide (t = .BEGIN_STR))).2.1.in_string = true ∧
    (top_frame (scan ⟨[defFrame, ⟨.INTERPOLATION, 0⟩], 2, 0, false, false⟩ ⟨[34], 0, 0, none, none⟩
        (fun t => decide (t = .BEGIN_STR))).2.1).kind = .INTERPOLATION := by
  refine ⟨by decide, by decide, by decide, by decide⟩

/-- C5 (amended): the invariant `in_string → top frame ≠ INTERPOLATION` is
not inductive on its own (see the counterexample: `BEGIN_STR` sets
`in_string` with the stack unchanged). Under the stronger entry condition
that neither of the two topmost frames is an `INTERPOLATION` frame, every
scan call — for every input and every valid-token set — ends in a state
where `in_string` true implies the top frame is not `INTERPOLATION`. -/
theorem C5_string_invariant (s : Scanner) (lex : Lexer) (valid : TokenType → Bool)
    (h1 : (top_frame s).kind ≠ .INTERPOLATION)
    (h2 : 2 ≤ s.depth → (getF s.stack (s.depth - 2)).kind ≠ .INTERPOLATION) :
    (scan s lex valid).2.1.in_string = true →
      (top_frame (scan s lex valid).2.1).kind ≠ .INTERPOLATION := by
  rcases hE : scan s lex valid with ⟨b, s1, l1⟩
  intro hstr
  show (top_frame s1).kind ≠ .INTERPOLATION
  simp only [scan] at hE
  split at hE
  · injection hE with hb hrest2
    injection hrest2 with hs hl
    rw [← hs]
    exact top_frame_pop_ne _ h1 h2
  · split at hE
    · have h := scanString_inv s lex valid h1
      rw [hE] at h
      exact h hstr
    · rcases hI : (if in_non_indented s then scanNonIndented s lex valid
          else scanIndented s lex valid) with ⟨b2, s2, l2⟩ | ⟨s2, l2⟩ <;>
        simp only [hI] at hE
      · injection hE with hb2 hrest2
        injection hrest2 with hs2 hl2
        rw [← hs2]
        have hR : RetFacts s s2 b2 := by
          split at hI
          · exact scanNonIndented_ret _ _ _ _ _ _ hI
          · exact scanIndented_ret _ _ _ _ _ _ hI
        exact hR.2.2 h1 h2
      · have hs2 : s2 = s := by
          split at hI
          · exact scanNonIndented_fall _ _ _ _ _ hI
          · exact scanIndented_fall _ _ _ _ _ hI
        rw [hs2] at hE
        have h := scanToken_inv s l2 valid h1 h2
        rw [hE] at h
        exact h hstr

/-- Witness for C5 (amended): entering a string from the sentinel-only state
establishes the invariant at exit. -/
theorem C5_string_invariant_witness :
    ((top_frame ⟨[defFrame], 1, 0, false, false⟩).kind ≠ .INTERPOLATION) ∧
    ((2 : Nat) ≤ (⟨[defFrame], 1, 0, false, false⟩ : Scanner).depth →
      (getF (⟨[defFrame], 1, 0, false, false⟩ : Scanner).stack
        ((⟨[defFrame], 1, 0, false, false⟩ : Scanner).depth - 2)).kind ≠ .INTERPOLATION) ∧
    ((scan ⟨[defFrame], 1, 0, false, false⟩ ⟨[34], 0, 0, none, none⟩
        (fun t => decide (t = .BEGIN_STR))).2.1.in_string = true →
      (top_frame (scan ⟨[defFrame], 1, 0, false, false⟩ ⟨[34], 0, 0, none, none⟩
        (fun t => decide (t = .BEGIN_STR))).2.1).kind ≠ .INTERPOLATION) :=
  ⟨by decide, by decide, C5_string_invariant _ _ _ (by decide) (by decide)⟩
